import Mathlib

/-!
# Verification of the analytics core of `be_Builder`

This file gives a shallow embedding, in Lean 4, of the three pure analytics
components of the repository's `/manage/analytics` route
(`src/routes/routes.analytics.js`-style file, supplied as `part_000`):

* `organizeData`         — the TimeBucketAggregator,
* `createSankeyData`     — the FlowGraphBuilder,
* `createRadarChartData` — the HealthScoreCalculator,

together with the date helpers `getStartOfPeriod` / `getPreviousPeriods`
that `organizeData` uses, and proves or refutes the frozen claims about
them.

Modelling conventions, fixed once for the whole file:

* JavaScript numbers are modelled by the type `JsNum`: an exact rational
  (`ℚ`) extended with `NaN`, `+Infinity` and `-Infinity`.  The binary64
  rounding of JS arithmetic is abstracted to exact rational arithmetic;
  none of the verified properties depends on double-precision rounding.
  The special values and the sign rules of division by zero follow the
  ECMAScript semantics (`0/0 = NaN`, `x/0 = ±Infinity` for `x ≠ 0`,
  comparisons with `NaN` are false).  Negative zero is not modelled (no
  input of the analyzed code produces one).
* Timestamps are integers: record timestamps `ts` are epoch seconds
  (the data model fixes them as integer seconds), `Date` values are epoch
  milliseconds (`item.ts * 1000` in the source).
* The process-local timezone is modelled as UTC (fixed zero offset, no
  DST), so `date-fns` alignment functions are arithmetic on epoch
  milliseconds plus the proleptic Gregorian civil calendar.
* `date-fns/format` output is modelled by the inductive `BucketLabel`
  that records exactly the information content of the format string used
  at each call site (`'MMM'` → the month number, `"HH:00"` → the hour of
  day, the full ISO pattern → the instant itself); on the JS `Date`
  range these renderings are injective in that content, so equality of
  `BucketLabel`s coincides with equality of the produced label strings,
  which is all `organizeData` uses them for (object keys).
-/

/-! ## JavaScript number semantics -/

/-- A JavaScript number: an exact rational, or one of the IEEE special
values `NaN`, `+Infinity`, `-Infinity` produced by JS arithmetic. -/
inductive JsNum where
  | num (q : ℚ)
  | nan
  | inf
  | ninf
deriving DecidableEq, Repr

namespace JsNum

/-- JS addition (used by the `reduce` summing response times). -/
def add : JsNum → JsNum → JsNum
  | num a, num b => num (a + b)
  | nan, _ => nan
  | _, nan => nan
  | inf, ninf => nan
  | ninf, inf => nan
  | inf, _ => inf
  | _, inf => inf
  | ninf, _ => ninf
  | _, ninf => ninf

/-- JS multiplication. -/
def mul : JsNum → JsNum → JsNum
  | num a, num b => num (a * b)
  | nan, _ => nan
  | _, nan => nan
  | inf, inf => inf
  | inf, ninf => ninf
  | ninf, inf => ninf
  | ninf, ninf => inf
  | inf, num b => if 0 < b then inf else if b < 0 then ninf else nan
  | num a, inf => if 0 < a then inf else if a < 0 then ninf else nan
  | ninf, num b => if 0 < b then ninf else if b < 0 then inf else nan
  | num a, ninf => if 0 < a then ninf else if a < 0 then inf else nan

/-- JS division, including the division-by-zero rules:
`0/0 = NaN`, `a/0 = ±Infinity` by the sign of `a`. -/
def div : JsNum → JsNum → JsNum
  | num a, num b =>
      if b = 0 then (if a = 0 then nan else if 0 < a then inf else ninf)
      else num (a / b)
  | nan, _ => nan
  | _, nan => nan
  | inf, inf => nan
  | inf, ninf => nan
  | ninf, inf => nan
  | ninf, ninf => nan
  | inf, num b => if b < 0 then ninf else inf
  | ninf, num b => if b < 0 then inf else ninf
  | num _, inf => num 0
  | num _, ninf => num 0

/-- JS strict `<` comparison: any comparison involving `NaN` is `false`. -/
def lt : JsNum → JsNum → Bool
  | num a, num b => a < b
  | nan, _ => false
  | _, nan => false
  | inf, _ => false
  | _, inf => true
  | _, ninf => false
  | ninf, _ => true

/-- `Number.prototype.toFixed d` followed by `parseFloat`: rounds a finite
number to `d` decimal digits (nearest, half away from floor, modelled as
Mathlib's `round` on exact rationals); `(±Infinity).toFixed` stringifies to
`"±Infinity"` and `parseFloat` of that is `±Infinity` again, and likewise
for `NaN`. -/
def toFixed (d : ℕ) : JsNum → JsNum
  | num q => num ((round (q * 10 ^ d) : ℤ) / (10 ^ d : ℚ))
  | nan => nan
  | inf => inf
  | ninf => ninf

/-- Rendering of a JS number into a display string.  The exact decimal
formatting JS performs is abstracted by an injective rendering of the
rational; the analyzed claims never inspect digits of a display string. -/
def render : JsNum → String
  | num q => toString q
  | nan => "NaN"
  | inf => "Infinity"
  | ninf => "-Infinity"

end JsNum

/-! ## The input record

`TX_LOGS` documents, restricted to the fields the three components read:
`ts` (epoch seconds), `hostname`, `path`, `method`, `response.status`,
`response_time` (milliseconds), `session_analytics.ip_address`. -/

structure TxRecord where
  ts : ℤ
  hostname : String
  path : String
  method : String
  /-- `item.response.status` -/
  status : ℤ
  /-- `item.response_time` (a JS number; finite in every log record) -/
  response_time : ℚ
  /-- `item.session_analytics.ip_address` -/
  ip_address : String
deriving DecidableEq, Repr

/-! ## HealthScoreCalculator (`createRadarChartData`) -/

/-- `sera_settings.systemSettings.seraSettings.healthMetrics`: the six
numeric thresholds destructured by `createRadarChartData`. -/
structure HealthMetrics where
  Builders : JsNum
  Inventory : JsNum
  Latency : JsNum
  RPS : JsNum
  Success : JsNum
  Uptime : JsNum
deriving DecidableEq, Repr

/-- One entry of the radar-chart list: `subject`, `description`, the
display string `actual`, the normalized `value` and the display `cap`. -/
structure HealthMetric where
  subject : String
  description : String
  actual : String
  value : JsNum
  cap : JsNum
deriving DecidableEq, Repr

/-- `totalRequests = node_data.length`. -/
def totalRequests (node_data : List TxRecord) : ℕ := node_data.length

/-- `successfulRequests = node_data.filter(item => item.response.status === 200).length`. -/
def successfulRequests (node_data : List TxRecord) : ℕ :=
  (node_data.filter (fun item => item.status = 200)).length

/-- `node_data.filter(item => item.response.status >= 400).length`
(the errored-request count subtracted in `uptime`). -/
def erroredRequests (node_data : List TxRecord) : ℕ :=
  (node_data.filter (fun item => 400 ≤ item.status)).length

/-- `uptime = (totalRequests - |status ≥ 400|) / totalRequests * 100`. -/
def uptime (node_data : List TxRecord) : JsNum :=
  JsNum.mul
    (JsNum.div
      (JsNum.num ((totalRequests node_data : ℚ) - (erroredRequests node_data : ℚ)))
      (JsNum.num (totalRequests node_data : ℚ)))
    (JsNum.num 100)

/-- `latency = node_data.reduce((acc, item) => acc + item.response_time, 0)
/ totalRequests`. -/
def latency (node_data : List TxRecord) : JsNum :=
  JsNum.div
    (JsNum.num (node_data.foldl (fun acc item => acc + item.response_time) 0))
    (JsNum.num (totalRequests node_data : ℚ))

/-- `rps = (totalRequests / timePeriodInSeconds) * 100` where
`timePeriodInSeconds = endTimestamp - startTimestamp`. -/
def rps (node_data : List TxRecord) (startTimestamp endTimestamp : ℚ) : JsNum :=
  JsNum.mul
    (JsNum.div (JsNum.num (totalRequests node_data : ℚ))
      (JsNum.num (endTimestamp - startTimestamp)))
    (JsNum.num 100)

/-- `successRate = (successfulRequests / totalRequests) * 100`. -/
def successRate (node_data : List TxRecord) : JsNum :=
  JsNum.mul
    (JsNum.div (JsNum.num (successfulRequests node_data : ℚ))
      (JsNum.num (totalRequests node_data : ℚ)))
    (JsNum.num 100)

/-- `createRadarChartData(node_data, startTimestamp, endTimestamp,
sera_settings)`.  Direct translation of the source: the derived
statistics above, then the six metric objects in source order (RPS,
Uptime, Success, Inventory, Builders, Latency).  `parseFloat` applied to
a number (or to the string `toFixed` produces) is the identity on its
numeric content and is folded into `JsNum.toFixed`. -/
def createRadarChartData (node_data : List TxRecord)
    (startTimestamp endTimestamp : ℚ) (sera_settings : HealthMetrics) :
    List HealthMetric :=
  let rps := rps node_data startTimestamp endTimestamp
  let uptime := uptime node_data
  let successRate := successRate node_data
  let latency := latency node_data
  [ { subject := "RPS"
      description := "Percent of overall RPS"
      actual := (JsNum.toFixed 5 rps).render ++ " rps"
      value := JsNum.mul (JsNum.div (JsNum.toFixed 5 rps) sera_settings.RPS) (JsNum.num 100)
      cap := JsNum.num 100 },
    { subject := "Uptime"
      description := "Percent of time since last restart that this has been available"
      actual := (JsNum.mul (JsNum.div uptime sera_settings.Uptime) (JsNum.num 100)).render ++ "%"
      value := JsNum.mul (JsNum.div uptime sera_settings.Uptime) (JsNum.num 100)
      cap := JsNum.num 100 },
    { subject := "Success"
      description := "Percent of responses that are 200 (Status Ok)"
      actual := successRate.render ++ "%"
      value := successRate
      cap := JsNum.num 100 },
    { subject := "Inventory"
      description := "Percent of OAS documentation that have descriptions"
      actual := "100%"
      value := JsNum.num 100
      cap := sera_settings.Inventory },
    { subject := "Builders"
      description := "Percent of endpoints that have builders setup"
      actual := "100%"
      value := JsNum.num 100
      cap := sera_settings.Builders },
    { subject := "Latency"
      description := "Average Latency of requests that are above " ++
        sera_settings.Latency.render ++ "ms"
      actual := (JsNum.toFixed 2 latency).render ++ "ms"
      value :=
        if JsNum.lt (JsNum.num 100)
            (JsNum.mul (JsNum.div sera_settings.Latency latency) (JsNum.num 100))
        then JsNum.num 100
        else JsNum.toFixed 2
          (JsNum.mul (JsNum.div sera_settings.Latency latency) (JsNum.num 100))
      cap := JsNum.num 100 } ]

/-! ## FlowGraphBuilder (`createSankeyData`)

The source keeps four mutable structures: `nodes`, `nodeIndex` (a JS
object mapping a node label to its ordinal), `links`, `linkIndex` (a JS
object mapping the string `` `${source}-${target}` `` to the position of
the link).  JS objects preserve key-insertion order; they are modelled by
association lists in insertion order.  The link key `` `${s}-${t}` `` is
injective in the pair `(s, t)` of naturals (the second component contains
no `-`), so the key is modelled by the pair itself. -/

structure SNode where
  name : String
  index : ℕ
deriving DecidableEq, Repr

structure SLink where
  source : ℕ
  target : ℕ
  value : ℕ
deriving DecidableEq, Repr

/-- The mutable state of one `createSankeyData` call. -/
structure SankeyState where
  nodes : List SNode
  nodeIndex : List (String × ℕ)
  links : List SLink
  linkIndex : List ((ℕ × ℕ) × ℕ)
deriving DecidableEq, Repr

/-- First-match association-list lookup: JS object property read. -/
def alookup {α β : Type} [DecidableEq α] : List (α × β) → α → Option β
  | [], _ => none
  | (k, v) :: rest, a => if k = a then some v else alookup rest a

/-- `getNodeIndex(name)`: reuse the existing index if the label is known,
otherwise append a fresh node whose `index` is the current `nodes.length`
(the `index` field is computed before the push, as in
`nodes.push({ name, index: nodes.length })`). -/
def getNodeIndex (st : SankeyState) (name : String) : SankeyState × ℕ :=
  match alookup st.nodeIndex name with
  | some i => (st, i)
  | none =>
      ({ st with
          nodeIndex := st.nodeIndex ++ [(name, st.nodes.length)],
          nodes := st.nodes ++ [⟨name, st.nodes.length⟩] },
        st.nodes.length)

/-- `links[i].value += 1`. -/
def bumpValue : List SLink → ℕ → List SLink
  | [], _ => []
  | l :: rest, 0 => { l with value := l.value + 1 } :: rest
  | l :: rest, n + 1 => l :: bumpValue rest n

/-- `getLinkIndex(source, target)`: create the edge with weight 1 on
first occurrence of the ordered pair, increment its weight otherwise.
(The returned index is discarded by every caller, so only the state is
returned.) -/
def getLinkIndex (st : SankeyState) (source target : ℕ) : SankeyState :=
  match alookup st.linkIndex (source, target) with
  | some li => { st with links := bumpValue st.links li }
  | none =>
      { st with
          linkIndex := st.linkIndex ++ [((source, target), st.links.length)],
          links := st.links ++ [⟨source, target, 1⟩] }

/-- The body of `node_data.forEach(item => ...)`: five node lookups, then
the four stage-adjacent links. -/
def processRecord (st : SankeyState) (item : TxRecord) : SankeyState :=
  let r1 := getNodeIndex st item.ip_address
  let r2 := getNodeIndex r1.1 "API - JSON"
  let r3 := getNodeIndex r2.1 item.hostname
  let r4 := getNodeIndex r3.1 item.path
  let r5 := getNodeIndex r4.1 item.method
  let st := getLinkIndex r5.1 r1.2 r2.2
  let st := getLinkIndex st r2.2 r3.2
  let st := getLinkIndex st r3.2 r4.2
  getLinkIndex st r4.2 r5.2

/-- `createSankeyData(node_data)`: fold the record list through
`processRecord` starting from empty state and return `{ nodes, links }`. -/
def createSankeyData (node_data : List TxRecord) : List SNode × List SLink :=
  let st := node_data.foldl processRecord ⟨[], [], [], []⟩
  (st.nodes, st.links)

/-- The label-pair transitions one record contributes, in link order:
ip → "API - JSON" → hostname → path → method. -/
def transitionsOf (item : TxRecord) : List (String × String) :=
  [(item.ip_address, "API - JSON"), ("API - JSON", item.hostname),
   (item.hostname, item.path), (item.path, item.method)]

/-- The weight the final graph assigns to the ordered label pair
`(a, b)`: resolve both labels through `nodeIndex`, resolve the node-index
pair through `linkIndex`, and read that link's `value`; 0 when absent. -/
def labelWeight (node_data : List TxRecord) (a b : String) : ℕ :=
  let st := node_data.foldl processRecord ⟨[], [], [], []⟩
  match alookup st.nodeIndex a, alookup st.nodeIndex b with
  | some i, some j =>
      match alookup st.linkIndex (i, j) with
      | some li => (st.links.getD li ⟨0, 0, 0⟩).value
      | none => 0
  | _, _ => 0

/-! ## The calendar model (UTC)

Epoch milliseconds, proleptic Gregorian calendar, fixed UTC offset.
`daysFromCivil` / `civilFromDays` are the standard civil-calendar
conversion algorithms (era = 400-year cycle of 146097 days).  All
divisors are positive, and `Int./` is Euclidean division, which floors
for positive divisors — exactly the arithmetic JS `Date` performs. -/

def msPerHour : ℤ := 3600000

def msPerDay : ℤ := 86400000

/-- Days since 1970-01-01 of the civil date `(y, m, d)`,
`1 ≤ m ≤ 12`. -/
def daysFromCivil (y m d : ℤ) : ℤ :=
  let y2 := if m ≤ 2 then y - 1 else y
  let era := y2 / 400
  let yoe := y2 - era * 400
  let mp := if m ≤ 2 then m + 9 else m - 3
  let doy := (153 * mp + 2) / 5 + d - 1
  let doe := yoe * 365 + yoe / 4 - yoe / 100 + doy
  era * 146097 + doe - 719468

/-- Days within an era that precede year-of-era `y` (March-based years,
`0 ≤ y ≤ 399`). -/
def yearOffset (y : ℤ) : ℤ := 365 * y + y / 4 - y / 100

/-- The era (400-year cycle) containing day `z`. -/
def eraOf (z : ℤ) : ℤ := (z + 719468) / 146097

/-- The day within its era, `0 ≤ doeOf z ≤ 146096`. -/
def doeOf (z : ℤ) : ℤ := z + 719468 - eraOf z * 146097

/-- The year of era (`0`–`399`) containing day-of-era `doe`: guess
`doe / 365` (clamped to the era) and correct downward by one when the
guessed year starts after `doe`. -/
def yoeOfDoe (doe : ℤ) : ℤ :=
  let g := min (doe / 365) 399
  if doe < yearOffset g then g - 1 else g

/-- The day within its March-based year, `0`–`365`. -/
def doyOfDoe (doe : ℤ) : ℤ := doe - yearOffset (yoeOfDoe doe)

/-- Civil date `(y, m, d)` of a count of days since 1970-01-01. -/
def civilFromDays (z : ℤ) : ℤ × ℤ × ℤ :=
  let doe := doeOf z
  let yoe := yoeOfDoe doe
  let y := yoe + eraOf z * 400
  let doy := doyOfDoe doe
  let mp := (5 * doy + 2) / 153
  let d := doy - (153 * mp + 2) / 5 + 1
  let m := if mp < 10 then mp + 3 else mp - 9
  (if m ≤ 2 then y + 1 else y, m, d)

def isLeap (y : ℤ) : Bool :=
  (y % 4 = 0 ∧ y % 100 ≠ 0) ∨ y % 400 = 0

def daysInMonth (y m : ℤ) : ℤ :=
  if m = 2 then (if isLeap y then 29 else 28)
  else if m = 4 ∨ m = 6 ∨ m = 9 ∨ m = 11 then 30
  else 31

/-- The civil date of an epoch-millisecond instant. -/
def civilOf (t : ℤ) : ℤ × ℤ × ℤ := civilFromDays (t / msPerDay)

/-- The month (1–12) of an instant; the content of a `'MMM'` label. -/
def monthOf (t : ℤ) : ℤ := (civilOf t).2.1

/-- The hour of day (0–23) of an instant; the content of an `"HH:00"`
label. -/
def hourOfDay (t : ℤ) : ℤ := (t / msPerHour) % 24

/-- `date-fns startOfHour`. -/
def startOfHour (t : ℤ) : ℤ := msPerHour * (t / msPerHour)

/-- `date-fns startOfDay`. -/
def startOfDay (t : ℤ) : ℤ := msPerDay * (t / msPerDay)

/-- `date-fns startOfWeek` with `weekStartsOn: 1` (Monday).
1970-01-01 was a Thursday, so day index 0 has day-of-week 4. -/
def startOfWeek (t : ℤ) : ℤ :=
  let day := t / msPerDay
  let dow := (day + 4) % 7
  msPerDay * (day - (dow + 6) % 7)

/-- `date-fns startOfMonth`. -/
def startOfMonth (t : ℤ) : ℤ :=
  let c := civilOf t
  msPerDay * daysFromCivil c.1 c.2.1 1

/-- `date-fns subMonths(t, 1)` (the only call the source makes): step to
the previous calendar month, clamping the day of month to the target
month's length and keeping the time of day. -/
def subMonths (t : ℤ) : ℤ :=
  let day := t / msPerDay
  let tod := t % msPerDay
  let c := civilFromDays day
  let y2 := if c.2.1 = 1 then c.1 - 1 else c.1
  let m2 := if c.2.1 = 1 then 12 else c.2.1 - 1
  let d2 := min c.2.2 (daysInMonth y2 m2)
  msPerDay * daysFromCivil y2 m2 d2 + tod

/-! ## TimeBucketAggregator (`organizeData`) -/

/-- `getStartOfPeriod(date, period)`: the `switch` of the source; any
unrecognized period falls through to the `default:` branch,
`startOfMonth`. -/
def getStartOfPeriod (date : ℤ) (period : String) : ℤ :=
  if period = "hourly" then startOfHour date
  else if period = "daily" then startOfDay date
  else if period = "weekly" then startOfWeek date
  else if period = "monthly" then startOfMonth date
  else startOfMonth date

/-- The `switch` that moves `current` one period backwards inside
`getPreviousPeriods` (`subHours/subDays/subWeeks/subMonths` by 1;
`default:` is `subMonths`). -/
def stepBack (t : ℤ) (period : String) : ℤ :=
  if period = "hourly" then t - msPerHour
  else if period = "daily" then t - msPerDay
  else if period = "weekly" then t - 7 * msPerDay
  else if period = "monthly" then subMonths t
  else subMonths t

/-- The push loop of `getPreviousPeriods`: starting at `current`, push
`getStartOfPeriod(current)` and step `current` backwards, `count`
times. -/
def getPreviousPeriodsAux (current : ℤ) (period : String) : ℕ → List ℤ
  | 0 => []
  | n + 1 =>
      getStartOfPeriod current period ::
        getPreviousPeriodsAux (stepBack current period) period n

/-- `getPreviousPeriods(date, period, count)`: the pushed list, reversed
to chronological order. -/
def getPreviousPeriods (date : ℤ) (period : String) (count : ℕ) : List ℤ :=
  (getPreviousPeriodsAux date period count).reverse

/-- The information content of the bucket label
`format(startOfPeriod, period === 'monthly' ? 'MMM' : period === 'hourly'
? "HH:00" : "yyyy-MM-dd'T'HH:mm:ss.SSSX")`: the month abbreviation is
determined by the month number, the `"HH:00"` string by the hour of day,
and the full ISO-8601 timestamp by the instant itself.  On the JS `Date`
range each rendering is injective in that content, so `BucketLabel`
equality coincides with equality of the produced strings — which is the
only use `organizeData` makes of them (object keys). -/
inductive BucketLabel where
  | mmm (month : ℤ)
  | hh (hour : ℤ)
  | iso (instant : ℤ)
deriving DecidableEq, Repr

/-- The label of the bucket starting at `t` under `period`. -/
def formatLabel (t : ℤ) (period : String) : BucketLabel :=
  if period = "monthly" then .mmm (monthOf t)
  else if period = "hourly" then .hh (hourOfDay t)
  else .iso t

/-- One entry of `dataMap` / of the returned chart list. -/
structure Bucket where
  name : BucketLabel
  req : ℕ
  error : ℕ
deriving DecidableEq, Repr

/-- The body of the inner `node_data.forEach`: count the record into the
bucket iff its instant `item.ts * 1000` is strictly after the bucket's
start and strictly before its end (`isAfter` / `isBefore` are both
strict), incrementing `error` as well iff `item.response.status >= 400`. -/
def tally (startOfPeriod endOfPeriod : ℤ) (b : Bucket) (item : TxRecord) : Bucket :=
  if startOfPeriod < item.ts * 1000 ∧ item.ts * 1000 < endOfPeriod then
    { b with
        req := b.req + 1,
        error := if 400 ≤ item.status then b.error + 1 else b.error }
  else b

/-- The bucket for the window `(s, e)` after the inner `forEach` ran:
fresh `{ name, req: 0, error: 0 }` folded through `tally`. -/
def bucketFor (node_data : List TxRecord) (nm : BucketLabel) (s e : ℤ) : Bucket :=
  node_data.foldl (tally s e) ⟨nm, 0, 0⟩

/-- JS object write `dataMap[name] = v`: overwrite in place when the key
exists (keeping its insertion position), append otherwise. -/
def upsert : List (BucketLabel × Bucket) → BucketLabel → Bucket →
    List (BucketLabel × Bucket)
  | [], k, v => [(k, v)]
  | (k0, v0) :: rest, k, v =>
      if k0 = k then (k, v) :: rest else (k0, v0) :: upsert rest k v

/-- The outer `periods.forEach((startOfPeriod, index) => ...)`: the end
of each bucket is the next period start, and the end of the last bucket
is `now`. -/
def fillBuckets (node_data : List TxRecord) (period : String) (now : ℤ) :
    List ℤ → List (BucketLabel × Bucket) → List (BucketLabel × Bucket)
  | [], dm => dm
  | [p], dm =>
      upsert dm (formatLabel p period) (bucketFor node_data (formatLabel p period) p now)
  | p :: q :: rest, dm =>
      fillBuckets node_data period now (q :: rest)
        (upsert dm (formatLabel p period) (bucketFor node_data (formatLabel p period) p q))

/-- `organizeData(node_data, period)`.  The source reads the clock twice
(`currentDate` at entry and `new Date()` for the last bucket's end,
microseconds apart); both reads are modelled as the same instant `now`,
passed explicitly.  `Object.values(dataMap)` returns the values in key
insertion order: the association list's order. -/
def organizeData (node_data : List TxRecord) (period : String) (now : ℤ) : List Bucket :=
  (fillBuckets node_data period now (getPreviousPeriods now period 5) []).map Prod.snd

/-- Sum of the `req` fields of a bucket list. -/
def sumReq (l : List Bucket) : ℕ := (l.map Bucket.req).sum

/-! ## Derived forms and test vectors used by the claim statements -/

/-- The `value` field of the `i`-th metric of a radar-chart list
(`JsNum.nan` past the end; the list always has 6 entries). -/
def metricValue (l : List HealthMetric) (i : ℕ) : JsNum :=
  (l.map HealthMetric.value).getD i JsNum.nan

/-- Is a JS number an ordinary (finite) number, i.e. not `NaN` or
`±Infinity`? -/
def JsNum.finite : JsNum → Bool
  | num _ => true
  | _ => false

/-- Settings with every threshold 1. -/
def sampleSettings : HealthMetrics := ⟨.num 1, .num 1, .num 1, .num 1, .num 1, .num 1⟩

/-- One OK request with response time 50 ms. -/
def sampleRecord : TxRecord := ⟨1, "h", "/p", "GET", 200, 50, "1.2.3.4"⟩

/-- Settings whose `Latency` threshold is 100 ms (the C8 scenario). -/
def latencySettings : HealthMetrics := ⟨.num 1, .num 1, .num 100, .num 1, .num 1, .num 1⟩

/-- A record whose instant `7200000 ms` sits exactly on an interior
bucket boundary when `period = "hourly"` and `now = 19800000`
(= 1970-01-01T05:30:00Z; the five aligned hour starts are
`3600000, ..., 18000000`). -/
def boundaryRecord : TxRecord := ⟨7200, "h", "/p", "GET", 200, 50, "1.2.3.4"⟩

/-- A record strictly inside the first hourly bucket for
`now = 19800000` and away from every boundary. -/
def insideRecord : TxRecord := ⟨3650, "h", "/p", "GET", 500, 50, "1.2.3.4"⟩

/-- The `now` used by the concrete bucket scenarios:
1970-01-01T05:30:00Z in epoch milliseconds. -/
def scenarioNow : ℤ := 19800000

/-- A concrete `now` for the monthly/unknown-period scenarios:
2023-11-14T22:13:20Z in epoch milliseconds. -/
def lateNow : ℤ := 1700000000000

/-- The five bucket start instants of one `organizeData` call. -/
def bucketStarts (now : ℤ) (period : String) : List ℤ :=
  getPreviousPeriods now period 5

/-- The five bucket end instants: each bucket ends at the next bucket's
start, the last at `now`. -/
def bucketEnds (now : ℤ) (period : String) : List ℤ :=
  (getPreviousPeriods now period 5).tail ++ [now]

/-- The bucket list `organizeData` produces when no two labels collide:
one bucket per period, in order.  (`specFill` recursion mirrors
`fillBuckets`.) -/
def specFill (node_data : List TxRecord) (period : String) (now : ℤ) :
    List ℤ → List Bucket
  | [] => []
  | [p] => [bucketFor node_data (formatLabel p period) p now]
  | p :: q :: rest =>
      bucketFor node_data (formatLabel p period) p q ::
        specFill node_data period now (q :: rest)

/-- The number of records whose instant is strictly inside the window
`(s, e)`. -/
def countIn : List TxRecord → ℤ → ℤ → ℕ
  | [], _, _ => 0
  | item :: rest, s, e =>
      (if s < item.ts * 1000 ∧ item.ts * 1000 < e then 1 else 0) + countIn rest s e

/-- The number of errored records (status ≥ 400) whose instant is
strictly inside `(s, e)`. -/
def countErrIn : List TxRecord → ℤ → ℤ → ℕ
  | [], _, _ => 0
  | item :: rest, s, e =>
      (if (s < item.ts * 1000 ∧ item.ts * 1000 < e) ∧ 400 ≤ item.status then 1 else 0) +
        countErrIn rest s e

/-- The name stored at node position `i`. -/
def nodeName (st : SankeyState) (i : ℕ) : String := (st.nodes.getD i ⟨"", 0⟩).name

/-- Well-formedness of a sankey state with respect to the list `ts` of
label transitions already processed: `nodeIndex` resolves a name to the
position of the node carrying it (and fails only for unknown names),
each node records its own position, names are distinct, `linkIndex`
resolves an index pair to the position of the link carrying it (and
fails only for absent pairs), link endpoint pairs are distinct valid
node positions, each link's weight counts the processed transitions
connecting its endpoint names, and every processed transition has its
link. -/
structure SInv (st : SankeyState) (ts : List (String × String)) : Prop where
  nidx_some : ∀ a : String, ∀ i : ℕ, alookup st.nodeIndex a = some i →
    i < st.nodes.length ∧ nodeName st i = a
  nidx_none : ∀ a : String, alookup st.nodeIndex a = none →
    ∀ nd ∈ st.nodes, nd.name ≠ a
  npos : ∀ k : ℕ, ∀ h : k < st.nodes.length, (st.nodes.get ⟨k, h⟩).index = k
  nnd : (st.nodes.map SNode.name).Nodup
  lidx_some : ∀ p : ℕ × ℕ, ∀ k : ℕ, alookup st.linkIndex p = some k →
    k < st.links.length ∧
    ((st.links.getD k ⟨0, 0, 0⟩).source, (st.links.getD k ⟨0, 0, 0⟩).target) = p
  lidx_none : ∀ p : ℕ × ℕ, alookup st.linkIndex p = none →
    ∀ j : ℕ, j < st.links.length →
      ((st.links.getD j ⟨0, 0, 0⟩).source, (st.links.getD j ⟨0, 0, 0⟩).target) ≠ p
  lnd : ∀ j k : ℕ, j < st.links.length → k < st.links.length →
    ((st.links.getD j ⟨0, 0, 0⟩).source, (st.links.getD j ⟨0, 0, 0⟩).target) =
      ((st.links.getD k ⟨0, 0, 0⟩).source, (st.links.getD k ⟨0, 0, 0⟩).target) → j = k
  lvalid : ∀ j : ℕ, j < st.links.length →
    (st.links.getD j ⟨0, 0, 0⟩).source < st.nodes.length ∧
    (st.links.getD j ⟨0, 0, 0⟩).target < st.nodes.length
  lweight : ∀ j : ℕ, j < st.links.length →
    (st.links.getD j ⟨0, 0, 0⟩).value = (ts.filter fun ab =>
      ab.1 = nodeName st (st.links.getD j ⟨0, 0, 0⟩).source ∧
      ab.2 = nodeName st (st.links.getD j ⟨0, 0, 0⟩).target).length
  lcover : ∀ ab ∈ ts, ∃ j : ℕ, j < st.links.length ∧
    nodeName st (st.links.getD j ⟨0, 0, 0⟩).source = ab.1 ∧
    nodeName st (st.links.getD j ⟨0, 0, 0⟩).target = ab.2

/-- The sankey state after folding a record list (the body of
`createSankeyData` before projecting `{ nodes, links }`). -/
def buildState (node_data : List TxRecord) : SankeyState :=
  node_data.foldl processRecord ⟨[], [], [], []⟩

/-- The state `createSankeyData` reaches on `n` copies of one record
whose five labels are pairwise distinct: five nodes in stage order and
four links of weight `n`. -/
def identState (r : TxRecord) (n : ℕ) : SankeyState :=
  ⟨[⟨r.ip_address, 0⟩, ⟨"API - JSON", 1⟩, ⟨r.hostname, 2⟩, ⟨r.path, 3⟩, ⟨r.method, 4⟩],
   [(r.ip_address, 0), ("API - JSON", 1), (r.hostname, 2), (r.path, 3), (r.method, 4)],
   [⟨0, 1, n⟩, ⟨1, 2, n⟩, ⟨2, 3, n⟩, ⟨3, 4, n⟩],
   [((0, 1), 0), ((1, 2), 1), ((2, 3), 2), ((3, 4), 3)]⟩

/-! ## Calendar correctness: the civil conversions are mutually inverse -/

theorem doeOf_bounds (z : ℤ) : 0 ≤ doeOf z ∧ doeOf z ≤ 146096 := by
  unfold doeOf eraOf
  omega

theorem yoe_facts (doe : ℤ) (h0 : 0 ≤ doe) (h1 : doe ≤ 146096) :
    0 ≤ yoeOfDoe doe ∧ yoeOfDoe doe ≤ 399 ∧ yearOffset (yoeOfDoe doe) ≤ doe := by
  unfold yoeOfDoe yearOffset
  dsimp only
  split_ifs <;> omega

theorem doy_facts (doe : ℤ) (h0 : 0 ≤ doe) (h1 : doe ≤ 146096) :
    0 ≤ doyOfDoe doe ∧ doyOfDoe doe ≤ 365 ∧
    (doyOfDoe doe = 365 →
      (yoeOfDoe doe % 4 = 3 ∧ yoeOfDoe doe % 100 ≠ 99) ∨ yoeOfDoe doe = 399) := by
  unfold doyOfDoe yoeOfDoe yearOffset
  dsimp only
  have h4 : (doe / 365 ⊓ 399) % 4 = 0 ∨ (doe / 365 ⊓ 399) % 4 = 1 ∨
      (doe / 365 ⊓ 399) % 4 = 2 ∨ (doe / 365 ⊓ 399) % 4 = 3 := by omega
  have h100 : (doe / 365 ⊓ 399) % 100 = 0 ∨ 1 ≤ (doe / 365 ⊓ 399) % 100 := by omega
  split_ifs <;> rcases h4 with h4 | h4 | h4 | h4 <;> rcases h100 with h100 | h100 <;> omega

theorem month_day_facts (doy : ℤ) (h0 : 0 ≤ doy) (h1 : doy ≤ 365) :
    0 ≤ (5 * doy + 2) / 153 ∧ (5 * doy + 2) / 153 ≤ 11 ∧
    1 ≤ doy - (153 * ((5 * doy + 2) / 153) + 2) / 5 + 1 ∧
    doy - (153 * ((5 * doy + 2) / 153) + 2) / 5 + 1 ≤
      (if (5 * doy + 2) / 153 = 11 then 29
       else if (5 * doy + 2) / 153 = 1 ∨ (5 * doy + 2) / 153 = 3 ∨
            (5 * doy + 2) / 153 = 6 ∨ (5 * doy + 2) / 153 = 8 then 30 else 31) ∧
    (doy - (153 * ((5 * doy + 2) / 153) + 2) / 5 + 1 = 29 →
      (5 * doy + 2) / 153 = 11 → doy = 365) := by
  split_ifs <;> omega

theorem doe_split (doe : ℤ) (h0 : 0 ≤ doe) (h1 : doe ≤ 146096) :
    0 ≤ yoeOfDoe doe ∧ yoeOfDoe doe ≤ 399 ∧
    doyOfDoe doe = doe - (365 * yoeOfDoe doe + yoeOfDoe doe / 4 - yoeOfDoe doe / 100) := by
  refine ⟨(yoe_facts doe h0 h1).1, (yoe_facts doe h0 h1).2.1, ?_⟩
  unfold doyOfDoe yearOffset
  ring


set_option maxHeartbeats 1000000 in
theorem civil_core (era yoe doy mp d m y : ℤ)
    (hy0 : 0 ≤ yoe) (hy1 : yoe ≤ 399)
    (ho0 : 0 ≤ doy) (ho1 : doy ≤ 365)
    (hleap : doy = 365 → (yoe % 4 = 3 ∧ yoe % 100 ≠ 99) ∨ yoe = 399)
    (hmp : mp = (5 * doy + 2) / 153)
    (hd : d = doy - (153 * mp + 2) / 5 + 1)
    (hm : m = if mp < 10 then mp + 3 else mp - 9)
    (hyy : y = yoe + era * 400) :
    1 ≤ m ∧ m ≤ 12 ∧ 1 ≤ d ∧ d ≤ daysInMonth (if m ≤ 2 then y + 1 else y) m := by
  subst hmp hd hm hyy
  unfold daysInMonth isLeap
  have h4 : yoe % 4 = 0 ∨ yoe % 4 = 1 ∨ yoe % 4 = 2 ∨ yoe % 4 = 3 := by omega
  have h100 : yoe % 100 = 99 ∨ yoe % 100 ≠ 99 := by omega
  split_ifs <;>
  first
    | omega
    | (simp_all only [decide_eq_true_eq, Bool.or_eq_true, Bool.and_eq_true,
        decide_eq_false_iff_not, Bool.not_eq_true, not_or, not_and]
       omega)

set_option maxHeartbeats 1000000 in
theorem rtA_core (era yoe doy mp d m y doe z : ℤ)
    (hy0 : 0 ≤ yoe) (hy1 : yoe ≤ 399)
    (ho0 : 0 ≤ doy) (ho1 : doy ≤ 365)
    (hmp : mp = (5 * doy + 2) / 153)
    (hd : d = doy - (153 * mp + 2) / 5 + 1)
    (hm : m = if mp < 10 then mp + 3 else mp - 9)
    (hyy : y = yoe + era * 400)
    (hdoe : doe = 365 * yoe + yoe / 4 - yoe / 100 + doy)
    (hz : z = era * 146097 + doe - 719468) :
    daysFromCivil (if m ≤ 2 then y + 1 else y) m d = z := by
  subst hmp hd hm hyy hdoe hz
  unfold daysFromCivil
  dsimp only
  split_ifs <;> omega


theorem eraOf_recompose (era doe : ℤ) (h0 : 0 ≤ doe) (h1 : doe ≤ 146096) :
    eraOf (era * 146097 + doe - 719468) = era := by
  unfold eraOf
  omega

theorem doeOf_recompose (era doe : ℤ) (h0 : 0 ≤ doe) (h1 : doe ≤ 146096) :
    doeOf (era * 146097 + doe - 719468) = doe := by
  unfold doeOf eraOf
  omega

theorem yoeOfDoe_recompose (yoe doe : ℤ) (hy0 : 0 ≤ yoe) (hy1 : yoe ≤ 399)
    (hlow : 365 * yoe + yoe / 4 - yoe / 100 ≤ doe)
    (hhigh : doe - (365 * yoe + yoe / 4 - yoe / 100) ≤ 364 ∨
      (doe - (365 * yoe + yoe / 4 - yoe / 100) = 365 ∧
        ((yoe % 4 = 3 ∧ yoe % 100 ≠ 99) ∨ yoe = 399))) :
    yoeOfDoe doe = yoe := by
  unfold yoeOfDoe yearOffset
  dsimp only
  have h4 : yoe % 4 = 0 ∨ yoe % 4 = 1 ∨ yoe % 4 = 2 ∨ yoe % 4 = 3 := by omega
  have h100 : yoe % 100 = 99 ∨ yoe % 100 ≠ 99 := by omega
  have hg : doe / 365 ⊓ 399 = yoe ∨ (doe / 365 ⊓ 399 = yoe + 1 ∧ yoe ≤ 398) := by
    omega
  rcases hg with hg | ⟨hg, hg398⟩ <;>
    rcases hhigh with hhigh | ⟨hhigh, hleap⟩ <;>
    rcases h4 with h4 | h4 | h4 | h4 <;> rcases h100 with h100 | h100 <;>
    split_ifs <;> omega

set_option maxHeartbeats 1000000 in
theorem rtB_core (y m d y2 era yoe mp doy doe z : ℤ)
    (hm0 : 1 ≤ m) (hm1 : m ≤ 12) (hd0 : 1 ≤ d) (hd31 : d ≤ 31)
    (hdFeb : m = 2 → d ≤ 29)
    (hdFeb29 : m = 2 → d = 29 → (y % 4 = 0 ∧ y % 100 ≠ 0) ∨ y % 400 = 0)
    (hd30 : m = 4 ∨ m = 6 ∨ m = 9 ∨ m = 11 → d ≤ 30)
    (hy2 : y2 = if m ≤ 2 then y - 1 else y)
    (hera : era = y2 / 400)
    (hyoe : yoe = y2 - era * 400)
    (hmp : mp = if m ≤ 2 then m + 9 else m - 3)
    (hdoy : doy = (153 * mp + 2) / 5 + d - 1)
    (hdoe : doe = yoe * 365 + yoe / 4 - yoe / 100 + doy)
    (hz : z = era * 146097 + doe - 719468) :
    civilFromDays z = (y, m, d) := by
  subst hz
  have hy2d : (m ≤ 2 ∧ y2 = y - 1) ∨ (3 ≤ m ∧ y2 = y) := by
    split_ifs at hy2 <;> omega
  have hmpd : (m ≤ 2 ∧ mp = m + 9) ∨ (3 ≤ m ∧ mp = m - 3) := by
    split_ifs at hmp <;> omega
  clear hy2 hmp
  have hyoe0 : 0 ≤ yoe := by omega
  have hyoe1 : yoe ≤ 399 := by omega
  have hmp0 : 0 ≤ mp := by omega
  have hmp1 : mp ≤ 11 := by omega
  have hdoy0 : 0 ≤ doy := by omega
  have hdoy1 : doy ≤ 364 ∨ (doy = 365 ∧ ((yoe % 4 = 3 ∧ yoe % 100 ≠ 99) ∨ yoe = 399)) := by
    by_cases hm2 : m = 2
    · have h29 := hdFeb hm2
      by_cases h28 : d ≤ 28
      · left; omega
      · have hleapy := hdFeb29 hm2 (by omega)
        right
        refine ⟨by omega, ?_⟩
        rcases hleapy with ⟨hy4, hy100⟩ | hy400
        · left; exact ⟨by omega, by omega⟩
        · right; omega
    · left; omega
  have hdoeb0 : 0 ≤ doe := by omega
  have hdoeb1 : doe ≤ 146096 := by omega
  have h1 : doeOf (era * 146097 + doe - 719468) = doe := doeOf_recompose era doe hdoeb0 hdoeb1
  have h2 : eraOf (era * 146097 + doe - 719468) = era := eraOf_recompose era doe hdoeb0 hdoeb1
  have h3 : yoeOfDoe doe = yoe := by
    refine yoeOfDoe_recompose yoe doe hyoe0 hyoe1 (by omega) ?_
    rcases hdoy1 with h | ⟨ha, hb⟩
    · left; omega
    · right; exact ⟨by omega, hb⟩
  have h4 : doyOfDoe doe = doy := by
    unfold doyOfDoe yearOffset
    rw [h3]
    omega
  have h5 : (5 * doy + 2) / 153 = mp := by
    interval_cases mp <;> omega
  unfold civilFromDays
  dsimp only
  rw [h1, h2, h3, h4, h5]
  simp only [Prod.mk.injEq]
  refine ⟨?_, ?_, ?_⟩ <;> first
    | (split_ifs <;> omega)
    | omega

theorem civilFromDays_valid (z : ℤ) :
    1 ≤ (civilFromDays z).2.1 ∧ (civilFromDays z).2.1 ≤ 12 ∧
    1 ≤ (civilFromDays z).2.2 ∧
    (civilFromDays z).2.2 ≤ daysInMonth (civilFromDays z).1 (civilFromDays z).2.1 := by
  obtain ⟨hd0, hd1⟩ := doeOf_bounds z
  obtain ⟨ho0, ho1, holeap⟩ := doy_facts (doeOf z) hd0 hd1
  obtain ⟨hy0, hy1, _⟩ := doe_split (doeOf z) hd0 hd1
  exact civil_core (eraOf z) (yoeOfDoe (doeOf z)) (doyOfDoe (doeOf z))
    ((5 * doyOfDoe (doeOf z) + 2) / 153)
    (doyOfDoe (doeOf z) - (153 * ((5 * doyOfDoe (doeOf z) + 2) / 153) + 2) / 5 + 1)
    (if (5 * doyOfDoe (doeOf z) + 2) / 153 < 10 then (5 * doyOfDoe (doeOf z) + 2) / 153 + 3
     else (5 * doyOfDoe (doeOf z) + 2) / 153 - 9)
    (yoeOfDoe (doeOf z) + eraOf z * 400)
    hy0 hy1 ho0 ho1 holeap rfl rfl rfl rfl

theorem daysFromCivil_civilFromDays (z : ℤ) :
    daysFromCivil (civilFromDays z).1 (civilFromDays z).2.1 (civilFromDays z).2.2 = z := by
  obtain ⟨hd0, hd1⟩ := doeOf_bounds z
  obtain ⟨ho0, ho1, _⟩ := doy_facts (doeOf z) hd0 hd1
  obtain ⟨hy0, hy1, hyeq⟩ := doe_split (doeOf z) hd0 hd1
  exact rtA_core (eraOf z) (yoeOfDoe (doeOf z)) (doyOfDoe (doeOf z))
    ((5 * doyOfDoe (doeOf z) + 2) / 153)
    (doyOfDoe (doeOf z) - (153 * ((5 * doyOfDoe (doeOf z) + 2) / 153) + 2) / 5 + 1)
    (if (5 * doyOfDoe (doeOf z) + 2) / 153 < 10 then (5 * doyOfDoe (doeOf z) + 2) / 153 + 3
     else (5 * doyOfDoe (doeOf z) + 2) / 153 - 9)
    (yoeOfDoe (doeOf z) + eraOf z * 400)
    (doeOf z) z
    hy0 hy1 ho0 ho1 rfl rfl rfl rfl (by omega) (by unfold doeOf eraOf; ring)

theorem civilFromDays_daysFromCivil (y m d : ℤ)
    (hm0 : 1 ≤ m) (hm1 : m ≤ 12) (hd0 : 1 ≤ d) (hd1 : d ≤ daysInMonth y m) :
    civilFromDays (daysFromCivil y m d) = (y, m, d) := by
  have hd31 : d ≤ 31 := by
    unfold daysInMonth isLeap at hd1
    split_ifs at hd1 <;> omega
  have hdFeb : m = 2 → d ≤ 29 := by
    intro hm2
    subst hm2
    unfold daysInMonth isLeap at hd1
    split_ifs at hd1 <;> omega
  have hdFeb29 : m = 2 → d = 29 → (y % 4 = 0 ∧ y % 100 ≠ 0) ∨ y % 400 = 0 := by
    intro hm2 hd29
    subst hm2
    by_cases hL : (y % 4 = 0 ∧ y % 100 ≠ 0) ∨ y % 400 = 0
    · exact hL
    · exfalso
      unfold daysInMonth isLeap at hd1
      rw [if_pos rfl, if_neg (by simpa using hL)] at hd1
      omega
  have hd30 : m = 4 ∨ m = 6 ∨ m = 9 ∨ m = 11 → d ≤ 30 := by
    intro hm
    unfold daysInMonth isLeap at hd1
    split_ifs at hd1 <;> omega
  exact rtB_core y m d (if m ≤ 2 then y - 1 else y)
    ((if m ≤ 2 then y - 1 else y) / 400)
    ((if m ≤ 2 then y - 1 else y) - (if m ≤ 2 then y - 1 else y) / 400 * 400)
    (if m ≤ 2 then m + 9 else m - 3)
    ((153 * (if m ≤ 2 then m + 9 else m - 3) + 2) / 5 + d - 1)
    _ _ hm0 hm1 hd0 hd31 hdFeb hdFeb29 hd30 rfl rfl rfl rfl rfl rfl rfl

/-! ## HealthScoreCalculator: claims C1, C8, C9 -/

theorem metricValue_zero (nd : List TxRecord) (st en : ℚ) (s : HealthMetrics) :
    metricValue (createRadarChartData nd st en s) 0 =
      JsNum.mul (JsNum.div (JsNum.toFixed 5 (rps nd st en)) s.RPS) (JsNum.num 100) := rfl

theorem metricValue_one (nd : List TxRecord) (st en : ℚ) (s : HealthMetrics) :
    metricValue (createRadarChartData nd st en s) 1 =
      JsNum.mul (JsNum.div (uptime nd) s.Uptime) (JsNum.num 100) := rfl

theorem metricValue_two (nd : List TxRecord) (st en : ℚ) (s : HealthMetrics) :
    metricValue (createRadarChartData nd st en s) 2 = successRate nd := rfl

theorem metricValue_five (nd : List TxRecord) (st en : ℚ) (s : HealthMetrics) :
    metricValue (createRadarChartData nd st en s) 5 =
      (if JsNum.lt (JsNum.num 100)
          (JsNum.mul (JsNum.div s.Latency (latency nd)) (JsNum.num 100))
       then JsNum.num 100
       else JsNum.toFixed 2
         (JsNum.mul (JsNum.div s.Latency (latency nd)) (JsNum.num 100))) := rfl

theorem lt_100_clamp (x : JsNum) :
    JsNum.lt (JsNum.num 100)
      (if JsNum.lt (JsNum.num 100) x then JsNum.num 100
       else JsNum.toFixed 2 x) = false := by
  cases x with
  | nan => rfl
  | inf => rfl
  | ninf => rfl
  | num q =>
      by_cases hq : (100 : ℚ) < q
      · have hc : JsNum.lt (JsNum.num 100) (JsNum.num q) = true := by
          show decide ((100 : ℚ) < q) = true
          simpa using hq
        rw [hc]
        show decide ((100 : ℚ) < 100) = false
        norm_num
      · have hc : JsNum.lt (JsNum.num 100) (JsNum.num q) = false := by
          show decide ((100 : ℚ) < q) = false
          simpa using hq
        rw [hc]
        show decide ((100 : ℚ) < (round (q * 10 ^ 2) : ℚ) / (10 ^ 2 : ℚ)) = false
        rw [decide_eq_false_iff_not, not_lt]
        rw [not_lt] at hq
        simp only [show ((10 : ℚ) ^ 2) = 100 from by norm_num]
        have h1 : |q * 100 - round (q * 100)| ≤ 1 / 2 := abs_sub_round (q * 100)
        have h2 : (round (q * 100) : ℚ) ≤ q * 100 + 1 / 2 := by
          have := abs_le.mp h1
          linarith [this.1]
        rw [div_le_iff₀ (by norm_num : (0 : ℚ) < 100)]
        have hq100 : q * 100 ≤ 10000 := by linarith
        have h5 : (round (q * 100) : ℚ) < 10001 := by linarith
        have h6 : round (q * 100) < 10001 := by exact_mod_cast h5
        have h7 : round (q * 100) ≤ 10000 := by omega
        have h8 : (round (q * 100) : ℚ) ≤ 10000 := by exact_mod_cast h7
        linarith

theorem success_never_exceeds_aux (s n : ℕ) (h : s ≤ n) :
    JsNum.lt (JsNum.num 100)
      (JsNum.mul (JsNum.div (JsNum.num (s : ℚ)) (JsNum.num (n : ℚ)))
        (JsNum.num 100)) = false := by
  by_cases hn : n = 0
  · subst hn
    have hs : s = 0 := Nat.le_zero.mp h
    subst hs
    rfl
  · have hn' : ((n : ℚ)) ≠ 0 := by exact_mod_cast hn
    have hnpos : (0 : ℚ) < (n : ℚ) := by
      have := Nat.pos_of_ne_zero hn
      exact_mod_cast this
    have hd : JsNum.div (JsNum.num (s : ℚ)) (JsNum.num (n : ℚ)) =
        JsNum.num ((s : ℚ) / (n : ℚ)) := by
      show (if (n : ℚ) = 0 then _ else JsNum.num ((s : ℚ) / (n : ℚ))) = _
      rw [if_neg hn']
    rw [hd]
    show decide ((100 : ℚ) < (s : ℚ) / (n : ℚ) * 100) = false
    rw [decide_eq_false_iff_not, not_lt]
    have hsn : (s : ℚ) ≤ (n : ℚ) := by exact_mod_cast h
    have : (s : ℚ) / (n : ℚ) ≤ 1 := (div_le_one hnpos).mpr hsn
    linarith

theorem rps_zero_window (nd : List TxRecord) (st : ℚ) (hnd : nd ≠ []) :
    rps nd st st = JsNum.inf := by
  have hlen : nd.length ≠ 0 := by simpa [List.length_eq_zero] using hnd
  have hn : ((nd.length : ℚ)) ≠ 0 := by exact_mod_cast hlen
  have hp : (0 : ℚ) < (nd.length : ℚ) := by
    have := Nat.pos_of_ne_zero hlen
    exact_mod_cast this
  unfold rps totalRequests
  rw [sub_self]
  have hd : JsNum.div (JsNum.num (nd.length : ℚ)) (JsNum.num 0) = JsNum.inf := by
    show (if (0 : ℚ) = 0 then
        (if (nd.length : ℚ) = 0 then JsNum.nan
         else if 0 < (nd.length : ℚ) then JsNum.inf else JsNum.ninf)
      else JsNum.num ((nd.length : ℚ) / 0)) = JsNum.inf
    rw [if_pos rfl, if_neg hn, if_pos hp]
  rw [hd]
  show (if (0 : ℚ) < 100 then JsNum.inf else if (100 : ℚ) < 0 then JsNum.ninf else JsNum.nan) = JsNum.inf
  norm_num

/-- **C1** (counterexample).  With an empty record list the component does
not fail: it returns the full 6-metric list, and that list contains `NaN`
values (Uptime, Success and Latency). -/
theorem claim_C1_counterexample :
    (createRadarChartData [] 0 10 sampleSettings).length = 6 ∧
    (createRadarChartData [] 0 10 sampleSettings).map HealthMetric.value =
      [JsNum.num 0, JsNum.nan, JsNum.nan, JsNum.num 100, JsNum.num 100, JsNum.nan] := by
  refine ⟨rfl, ?_⟩
  show [JsNum.mul (JsNum.div (JsNum.toFixed 5 (rps [] 0 10)) sampleSettings.RPS) (JsNum.num 100),
        JsNum.mul (JsNum.div (uptime []) sampleSettings.Uptime) (JsNum.num 100),
        successRate [], JsNum.num 100, JsNum.num 100, _] = _
  norm_num [rps, uptime, successRate, latency, totalRequests, successfulRequests,
    erroredRequests, sampleSettings, JsNum.div, JsNum.mul, JsNum.toFixed, JsNum.lt, round_eq]

/-- **C1** (amended).  On an empty record list, or a zero-duration window,
`createRadarChartData` does not raise any error: it always returns the
6-metric list; with empty records the Success metric's value is `NaN`,
and with a zero-duration window and non-empty records the RPS metric's
value is not a finite number. -/
theorem claim_C1 :
    (∀ st en s, (createRadarChartData [] st en s).length = 6 ∧
      metricValue (createRadarChartData [] st en s) 2 = JsNum.nan) ∧
    (∀ nd st s, nd ≠ [] →
      (metricValue (createRadarChartData nd st st s) 0).finite = false) := by
  constructor
  · intro st en s
    refine ⟨rfl, ?_⟩
    rw [metricValue_two]
    rfl
  · intro nd st s hnd
    rw [metricValue_zero, rps_zero_window nd st hnd]
    show ((JsNum.div JsNum.inf s.RPS).mul (JsNum.num 100)).finite = false
    cases hr : s.RPS with
    | num b =>
        show ((if b < 0 then JsNum.ninf else JsNum.inf).mul (JsNum.num 100)).finite = false
        by_cases hb : b < 0
        · rw [if_pos hb]
          show (if (0:ℚ) < 100 then JsNum.ninf else if (100:ℚ) < 0 then JsNum.inf else JsNum.nan).finite = false
          norm_num [JsNum.finite]
        · rw [if_neg hb]
          show (if (0:ℚ) < 100 then JsNum.inf else if (100:ℚ) < 0 then JsNum.ninf else JsNum.nan).finite = false
          norm_num [JsNum.finite]
    | nan => rfl
    | inf => rfl
    | ninf => rfl

theorem claim_C1_witness :
    (metricValue (createRadarChartData [sampleRecord] 5 5 sampleSettings) 0).finite = false :=
  claim_C1.2 [sampleRecord] 5 sampleSettings (by decide)

/-- **C8** (counterexample).  The Success metric's value is `successRate`,
a true percentage: it can never exceed 100 on any input, refuting the
claim that the Success value "may exceed 100". -/
theorem claim_C8_counterexample :
    ¬ ∃ nd st en s, JsNum.lt (JsNum.num 100)
        (metricValue (createRadarChartData nd st en s) 2) = true := by
  rintro ⟨nd, st, en, s, h⟩
  rw [metricValue_two] at h
  unfold successRate successfulRequests totalRequests at h
  rw [success_never_exceeds_aux _ _ (List.length_filter_le _ _)] at h
  exact Bool.false_ne_true h

/-- **C8** (amended).  The Latency metric value never exceeds 100
(clamped by the ternary); the RPS and Uptime values are unclamped and
can exceed 100; the Success value, although unclamped, is a true
percentage and can never exceed 100 on any input; with threshold
`Latency = 100` and average latency 50 ms, the Latency value is
exactly 100. -/
theorem claim_C8 :
    (∀ nd st en s, JsNum.lt (JsNum.num 100)
        (metricValue (createRadarChartData nd st en s) 5) = false) ∧
    (∀ nd st en s, JsNum.lt (JsNum.num 100)
        (metricValue (createRadarChartData nd st en s) 2) = false) ∧
    JsNum.lt (JsNum.num 100)
      (metricValue (createRadarChartData [sampleRecord] 0 1 sampleSettings) 0) = true ∧
    JsNum.lt (JsNum.num 100)
      (metricValue (createRadarChartData [sampleRecord] 0 1 sampleSettings) 1) = true ∧
    metricValue (createRadarChartData [sampleRecord] 0 1 latencySettings) 5 = JsNum.num 100 := by
  refine ⟨?_, ?_, ?_, ?_, ?_⟩
  · intro nd st en s
    rw [metricValue_five]
    exact lt_100_clamp _
  · intro nd st en s
    rw [metricValue_two]
    unfold successRate successfulRequests totalRequests
    exact success_never_exceeds_aux _ _ (List.length_filter_le _ _)
  · rw [metricValue_zero]
    norm_num [rps, totalRequests, sampleRecord, sampleSettings, JsNum.div, JsNum.mul,
      JsNum.toFixed, JsNum.lt, round_eq]
  · rw [metricValue_one]
    norm_num [uptime, totalRequests, erroredRequests, sampleRecord, sampleSettings,
      JsNum.div, JsNum.mul, JsNum.lt]
  · rw [metricValue_five]
    norm_num [latency, totalRequests, sampleRecord, latencySettings, JsNum.div, JsNum.mul,
      JsNum.toFixed, JsNum.lt, round_eq, List.foldl]

/-- **C9** (confirmed).  The Success threshold is destructured but never
used: two settings objects differing only in `Success` produce identical
radar-chart output. -/
theorem claim_C9 (nd : List TxRecord) (st en : ℚ) (B I L R S1 S2 U : JsNum) :
    createRadarChartData nd st en ⟨B, I, L, R, S1, U⟩ =
    createRadarChartData nd st en ⟨B, I, L, R, S2, U⟩ := rfl

/-! ## TimeBucketAggregator: structure of the data map -/

theorem countIn_eq_filter (nd : List TxRecord) (s e : ℤ) :
    countIn nd s e =
      (nd.filter (fun item => s < item.ts * 1000 ∧ item.ts * 1000 < e)).length := by
  induction nd with
  | nil => rfl
  | cons r rest ih =>
      unfold countIn
      rw [List.filter_cons]
      by_cases h : s < r.ts * 1000 ∧ r.ts * 1000 < e
      · simp only [h, if_true]
        simp [h, ih]
        omega
      · simp [h, ih]

theorem countErrIn_eq_filter (nd : List TxRecord) (s e : ℤ) :
    countErrIn nd s e =
      (nd.filter (fun item =>
        (s < item.ts * 1000 ∧ item.ts * 1000 < e) ∧ 400 ≤ item.status)).length := by
  induction nd with
  | nil => rfl
  | cons r rest ih =>
      unfold countErrIn
      rw [List.filter_cons]
      by_cases h : (s < r.ts * 1000 ∧ r.ts * 1000 < e) ∧ 400 ≤ r.status
      · simp only [h, if_true]
        simp [h, ih]
        omega
      · simp [h, ih]

theorem countErrIn_le_countIn (nd : List TxRecord) (s e : ℤ) :
    countErrIn nd s e ≤ countIn nd s e := by
  induction nd with
  | nil => exact le_refl 0
  | cons r rest ih =>
      unfold countIn countErrIn
      split_ifs <;> omega

theorem upsert_not_mem (dm : List (BucketLabel × Bucket)) (k : BucketLabel) (v : Bucket)
    (h : k ∉ dm.map Prod.fst) : upsert dm k v = dm ++ [(k, v)] := by
  induction dm with
  | nil => rfl
  | cons kv rest ih =>
      obtain ⟨k0, v0⟩ := kv
      simp only [List.map_cons, List.mem_cons] at h
      push_neg at h
      unfold upsert
      rw [if_neg (fun he => h.1 he.symm)]
      rw [ih h.2]
      simp

theorem countIn_cons (item : TxRecord) (rest : List TxRecord) (s e : ℤ) :
    countIn (item :: rest) s e =
      (if s < item.ts * 1000 ∧ item.ts * 1000 < e then 1 else 0) + countIn rest s e := rfl

theorem countErrIn_cons (item : TxRecord) (rest : List TxRecord) (s e : ℤ) :
    countErrIn (item :: rest) s e =
      (if (s < item.ts * 1000 ∧ item.ts * 1000 < e) ∧ 400 ≤ item.status then 1 else 0) +
        countErrIn rest s e := rfl

theorem bucketFor_eq (nd : List TxRecord) (nm : BucketLabel) (s e : ℤ) :
    bucketFor nd nm s e = ⟨nm, countIn nd s e, countErrIn nd s e⟩ := by
  suffices h : ∀ b : Bucket, nd.foldl (tally s e) b =
      ⟨b.name, b.req + countIn nd s e, b.error + countErrIn nd s e⟩ by
    unfold bucketFor
    rw [h]
    simp
  induction nd with
  | nil => intro b; simp [countIn, countErrIn]
  | cons r rest ih =>
      intro b
      simp only [List.foldl_cons]
      rw [ih, countIn_cons, countErrIn_cons]
      unfold tally
      split_ifs with h1 h2 <;>
        simp only [Bucket.mk.injEq, true_and] <;> omega

theorem fillBuckets_snd (nd : List TxRecord) (period : String) (now : ℤ) :
    ∀ ps : List ℤ, ∀ dm : List (BucketLabel × Bucket),
    (∀ p ∈ ps, formatLabel p period ∉ dm.map Prod.fst) →
    (ps.map (fun p => formatLabel p period)).Nodup →
    (fillBuckets nd period now ps dm).map Prod.snd =
      dm.map Prod.snd ++ specFill nd period now ps
  | [], dm, _, _ => by simp [fillBuckets, specFill]
  | [p], dm, hdisj, _ => by
      unfold fillBuckets specFill
      rw [upsert_not_mem dm _ _ (hdisj p (by simp))]
      simp
  | p :: q :: rest, dm, hdisj, hnd => by
      have hps : formatLabel p period ∉ dm.map Prod.fst := hdisj p (by simp)
      have hup := upsert_not_mem dm (formatLabel p period)
        (bucketFor nd (formatLabel p period) p q) hps
      have hnd' : ((q :: rest).map (fun x => formatLabel x period)).Nodup := by
        simp only [List.map_cons, List.nodup_cons] at hnd ⊢
        exact hnd.2
      have hdisj' : ∀ x ∈ q :: rest, formatLabel x period ∉
          (upsert dm (formatLabel p period)
            (bucketFor nd (formatLabel p period) p q)).map Prod.fst := by
        intro x hx
        rw [hup]
        simp only [List.map_append, List.map_cons, List.map_nil, List.mem_append,
          List.mem_cons, List.not_mem_nil, or_false]
        push_neg
        refine ⟨hdisj x (by simp [hx]), ?_⟩
        intro he
        simp only [List.map_cons, List.nodup_cons] at hnd
        have hmem := List.mem_map_of_mem (fun t => formatLabel t period) hx
        dsimp only at hmem
        rw [he] at hmem
        exact hnd.1 (by simpa using hmem)
      show (fillBuckets nd period now (q :: rest) _).map Prod.snd = _
      rw [fillBuckets_snd nd period now (q :: rest) _ hdisj' hnd', hup]
      simp [specFill]

theorem organizeData_eq_specFill (nd : List TxRecord) (period : String) (now : ℤ)
    (hnd : ((getPreviousPeriods now period 5).map (fun p => formatLabel p period)).Nodup) :
    organizeData nd period now = specFill nd period now (getPreviousPeriods now period 5) := by
  unfold organizeData
  rw [fillBuckets_snd nd period now _ [] (by simp) hnd]
  simp

theorem getPreviousPeriods_five (now : ℤ) (period : String) :
    getPreviousPeriods now period 5 =
      [getStartOfPeriod (stepBack (stepBack (stepBack (stepBack now period) period) period) period) period,
       getStartOfPeriod (stepBack (stepBack (stepBack now period) period) period) period,
       getStartOfPeriod (stepBack (stepBack now period) period) period,
       getStartOfPeriod (stepBack now period) period,
       getStartOfPeriod now period] := rfl

theorem daysInMonth_pos (y m : ℤ) : 28 ≤ daysInMonth y m := by
  unfold daysInMonth isLeap
  split_ifs <;> omega

theorem daysFromCivil_day_shift (y m d : ℤ) :
    daysFromCivil y m d = daysFromCivil y m 1 + (d - 1) := by
  unfold daysFromCivil
  dsimp only
  split_ifs <;> ring

set_option maxHeartbeats 1000000 in
theorem daysFromCivil_prevMonth_lt (y m : ℤ) (hm0 : 1 ≤ m) (hm1 : m ≤ 12) :
    daysFromCivil (if m = 1 then y - 1 else y) (if m = 1 then 12 else m - 1) 1 <
      daysFromCivil y m 1 := by
  unfold daysFromCivil
  dsimp only
  have h400 : y % 400 = 0 ∨ 1 ≤ y % 400 := by omega
  have h4 : (y - 1) % 4 = 0 ∨ (y - 1) % 4 = 1 ∨ (y - 1) % 4 = 2 ∨ (y - 1) % 4 = 3 := by omega
  have h100 : (y - 1) % 100 = 0 ∨ 1 ≤ (y - 1) % 100 := by omega
  rcases h400 with h400 | h400 <;> rcases h4 with h4 | h4 | h4 | h4 <;>
    rcases h100 with h100 | h100 <;> split_ifs <;> omega

theorem civilOf_valid (t : ℤ) :
    1 ≤ (civilOf t).2.1 ∧ (civilOf t).2.1 ≤ 12 ∧ 1 ≤ (civilOf t).2.2 ∧
    (civilOf t).2.2 ≤ daysInMonth (civilOf t).1 (civilOf t).2.1 :=
  civilFromDays_valid (t / msPerDay)

theorem daysFromCivil_civilOf (t : ℤ) :
    daysFromCivil (civilOf t).1 (civilOf t).2.1 (civilOf t).2.2 = t / msPerDay :=
  daysFromCivil_civilFromDays (t / msPerDay)

theorem startOfMonth_le (t : ℤ) : startOfMonth t ≤ t := by
  obtain ⟨hm0, hm1, hd0, hd1⟩ := civilOf_valid t
  have h3 := daysFromCivil_civilOf t
  have h2 := daysFromCivil_day_shift (civilOf t).1 (civilOf t).2.1 (civilOf t).2.2
  unfold startOfMonth
  dsimp only
  have key : daysFromCivil (civilOf t).1 (civilOf t).2.1 1 =
      t / msPerDay - ((civilOf t).2.2 - 1) := by omega
  rw [key]
  unfold msPerDay
  omega

theorem civilOf_startOfMonth (t : ℤ) :
    civilOf (startOfMonth t) = ((civilOf t).1, (civilOf t).2.1, 1) := by
  obtain ⟨hm0, hm1, hd0, hd1⟩ := civilOf_valid t
  unfold startOfMonth civilOf
  have hq : msPerDay * daysFromCivil (civilFromDays (t / msPerDay)).1
      (civilFromDays (t / msPerDay)).2.1 1 / msPerDay =
      daysFromCivil (civilFromDays (t / msPerDay)).1 (civilFromDays (t / msPerDay)).2.1 1 := by
    unfold msPerDay
    omega
  rw [hq]
  exact civilFromDays_daysFromCivil _ _ _ hm0 hm1 (le_refl 1)
    (by have := daysInMonth_pos (civilFromDays (t / msPerDay)).1 (civilFromDays (t / msPerDay)).2.1; omega)

theorem civilOf_subMonths (t : ℤ) :
    civilOf (subMonths t) =
      (if (civilOf t).2.1 = 1 then (civilOf t).1 - 1 else (civilOf t).1,
       if (civilOf t).2.1 = 1 then 12 else (civilOf t).2.1 - 1,
       min (civilOf t).2.2
         (daysInMonth (if (civilOf t).2.1 = 1 then (civilOf t).1 - 1 else (civilOf t).1)
           (if (civilOf t).2.1 = 1 then 12 else (civilOf t).2.1 - 1))) := by
  unfold subMonths civilOf
  obtain ⟨hm0, hm1, hd0, hd1⟩ := civilFromDays_valid (t / msPerDay)
  dsimp only
  have hq : ∀ D : ℤ, (msPerDay * D + t % msPerDay) / msPerDay = D := by
    intro D
    unfold msPerDay
    omega
  rw [hq]
  exact civilFromDays_daysFromCivil _ _ _
    (by split_ifs <;> omega)
    (by split_ifs <;> omega)
    (by
      have := daysInMonth_pos
        (if (civilFromDays (t / msPerDay)).2.1 = 1 then (civilFromDays (t / msPerDay)).1 - 1
         else (civilFromDays (t / msPerDay)).1)
        (if (civilFromDays (t / msPerDay)).2.1 = 1 then 12
         else (civilFromDays (t / msPerDay)).2.1 - 1)
      simp only [le_min_iff]
      constructor <;> omega)
    (min_le_right _ _)

theorem startOfMonth_subMonths_lt (t : ℤ) : startOfMonth (subMonths t) < startOfMonth t := by
  obtain ⟨hm0, hm1, hd0, hd1⟩ := civilOf_valid t
  have hstep := civilOf_subMonths t
  have hlt := daysFromCivil_prevMonth_lt (civilOf t).1 (civilOf t).2.1 hm0 hm1
  unfold startOfMonth
  dsimp only
  rw [hstep]
  dsimp only
  unfold msPerDay
  omega

/-- The absolute month index `12 * year + month` of an instant. -/
def monthIdx (t : ℤ) : ℤ := 12 * (civilOf t).1 + (civilOf t).2.1

theorem monthIdx_subMonths (t : ℤ) : monthIdx (subMonths t) = monthIdx t - 1 := by
  obtain ⟨hm0, hm1, hd0, hd1⟩ := civilOf_valid t
  unfold monthIdx
  rw [civilOf_subMonths t]
  dsimp only
  split_ifs <;> omega

theorem monthIdx_bounds (t : ℤ) :
    1 ≤ (civilOf t).2.1 ∧ (civilOf t).2.1 ≤ 12 ∧
    monthIdx t = 12 * (civilOf t).1 + (civilOf t).2.1 := by
  obtain ⟨hm0, hm1, _, _⟩ := civilOf_valid t
  exact ⟨hm0, hm1, rfl⟩

theorem monthOf_startOfMonth (t : ℤ) : monthOf (startOfMonth t) = monthOf t := by
  unfold monthOf
  rw [civilOf_startOfMonth t]

theorem periods_hourly (now : ℤ) :
    getPreviousPeriods now "hourly" 5 =
      [startOfHour now - 4 * msPerHour, startOfHour now - 3 * msPerHour,
       startOfHour now - 2 * msPerHour, startOfHour now - 1 * msPerHour,
       startOfHour now] := by
  have hsh : ∀ u : ℤ, startOfHour (u - msPerHour) = startOfHour u - msPerHour := by
    intro u
    unfold startOfHour msPerHour
    omega
  rw [getPreviousPeriods_five]
  show [startOfHour (now - msPerHour - msPerHour - msPerHour - msPerHour),
        startOfHour (now - msPerHour - msPerHour - msPerHour),
        startOfHour (now - msPerHour - msPerHour),
        startOfHour (now - msPerHour), startOfHour now] = _
  rw [hsh, hsh, hsh, hsh]
  simp only [List.cons.injEq, and_true]
  omega

theorem periods_daily (now : ℤ) :
    getPreviousPeriods now "daily" 5 =
      [startOfDay now - 4 * msPerDay, startOfDay now - 3 * msPerDay,
       startOfDay now - 2 * msPerDay, startOfDay now - 1 * msPerDay,
       startOfDay now] := by
  have hsh : ∀ u : ℤ, startOfDay (u - msPerDay) = startOfDay u - msPerDay := by
    intro u
    unfold startOfDay msPerDay
    omega
  rw [getPreviousPeriods_five]
  show [startOfDay (now - msPerDay - msPerDay - msPerDay - msPerDay),
        startOfDay (now - msPerDay - msPerDay - msPerDay),
        startOfDay (now - msPerDay - msPerDay),
        startOfDay (now - msPerDay), startOfDay now] = _
  rw [hsh, hsh, hsh, hsh]
  simp only [List.cons.injEq, and_true]
  omega

theorem periods_weekly (now : ℤ) :
    getPreviousPeriods now "weekly" 5 =
      [startOfWeek now - 4 * (7 * msPerDay), startOfWeek now - 3 * (7 * msPerDay),
       startOfWeek now - 2 * (7 * msPerDay), startOfWeek now - 1 * (7 * msPerDay),
       startOfWeek now] := by
  have hsh : ∀ u : ℤ, startOfWeek (u - 7 * msPerDay) = startOfWeek u - 7 * msPerDay := by
    intro u
    unfold startOfWeek msPerDay
    dsimp only
    omega
  rw [getPreviousPeriods_five]
  show [startOfWeek (now - 7 * msPerDay - 7 * msPerDay - 7 * msPerDay - 7 * msPerDay),
        startOfWeek (now - 7 * msPerDay - 7 * msPerDay - 7 * msPerDay),
        startOfWeek (now - 7 * msPerDay - 7 * msPerDay),
        startOfWeek (now - 7 * msPerDay), startOfWeek now] = _
  rw [hsh, hsh, hsh, hsh]
  simp only [List.cons.injEq, and_true]
  omega

theorem getStartOfPeriod_default (period : String)
    (h1 : period ≠ "hourly") (h2 : period ≠ "daily")
    (h3 : period ≠ "weekly") :
    ∀ t : ℤ, getStartOfPeriod t period = startOfMonth t := by
  intro t
  unfold getStartOfPeriod
  rw [if_neg h1, if_neg h2, if_neg h3]
  split_ifs <;> rfl

theorem stepBack_default (period : String)
    (h1 : period ≠ "hourly") (h2 : period ≠ "daily")
    (h3 : period ≠ "weekly") :
    ∀ t : ℤ, stepBack t period = subMonths t := by
  intro t
  unfold stepBack
  rw [if_neg h1, if_neg h2, if_neg h3]
  split_ifs <;> rfl

theorem periods_default (now : ℤ) (period : String)
    (h1 : period ≠ "hourly") (h2 : period ≠ "daily") (h3 : period ≠ "weekly") :
    getPreviousPeriods now period 5 =
      [startOfMonth (subMonths (subMonths (subMonths (subMonths now)))),
       startOfMonth (subMonths (subMonths (subMonths now))),
       startOfMonth (subMonths (subMonths now)),
       startOfMonth (subMonths now), startOfMonth now] := by
  rw [getPreviousPeriods_five]
  rw [stepBack_default period h1 h2 h3, stepBack_default period h1 h2 h3,
    stepBack_default period h1 h2 h3, stepBack_default period h1 h2 h3]
  rw [getStartOfPeriod_default period h1 h2 h3, getStartOfPeriod_default period h1 h2 h3,
    getStartOfPeriod_default period h1 h2 h3, getStartOfPeriod_default period h1 h2 h3,
    getStartOfPeriod_default period h1 h2 h3]

theorem sum_five_windows (p1 p2 p3 p4 p5 now : ℤ)
    (h12 : p1 < p2) (h23 : p2 < p3) (h34 : p3 < p4) (h45 : p4 < p5) (h5n : p5 ≤ now) :
    ∀ nd : List TxRecord,
    (countIn nd p1 p2 + countIn nd p2 p3 + countIn nd p3 p4 + countIn nd p4 p5 +
      countIn nd p5 now ≤ nd.length) ∧
    ((∀ r ∈ nd, p1 < r.ts * 1000 ∧ r.ts * 1000 < now ∧ r.ts * 1000 ≠ p2 ∧
        r.ts * 1000 ≠ p3 ∧ r.ts * 1000 ≠ p4 ∧ r.ts * 1000 ≠ p5) →
      countIn nd p1 p2 + countIn nd p2 p3 + countIn nd p3 p4 + countIn nd p4 p5 +
        countIn nd p5 now = nd.length)
  | [] => by simp [countIn]
  | r :: rest => by
      obtain ⟨ih1, ih2⟩ := sum_five_windows p1 p2 p3 p4 p5 now h12 h23 h34 h45 h5n rest
      simp only [countIn_cons, List.length_cons]
      constructor
      · have hle : (if p1 < r.ts * 1000 ∧ r.ts * 1000 < p2 then 1 else 0) +
            (if p2 < r.ts * 1000 ∧ r.ts * 1000 < p3 then 1 else 0) +
            (if p3 < r.ts * 1000 ∧ r.ts * 1000 < p4 then 1 else 0) +
            (if p4 < r.ts * 1000 ∧ r.ts * 1000 < p5 then 1 else 0) +
            (if p5 < r.ts * 1000 ∧ r.ts * 1000 < now then 1 else 0) ≤ 1 := by
          split_ifs <;> omega
        omega
      · intro hall
        obtain ⟨ha, hb, hc, hd, he, hf⟩ := hall r (by simp)
        have hrest := ih2 (fun x hx => hall x (by simp [hx]))
        have hone : (if p1 < r.ts * 1000 ∧ r.ts * 1000 < p2 then 1 else 0) +
            (if p2 < r.ts * 1000 ∧ r.ts * 1000 < p3 then 1 else 0) +
            (if p3 < r.ts * 1000 ∧ r.ts * 1000 < p4 then 1 else 0) +
            (if p4 < r.ts * 1000 ∧ r.ts * 1000 < p5 then 1 else 0) +
            (if p5 < r.ts * 1000 ∧ r.ts * 1000 < now then 1 else 0) = 1 := by
          split_ifs <;> omega
        omega

theorem formatLabel_hourly (t : ℤ) : formatLabel t "hourly" = .hh (hourOfDay t) := rfl

theorem formatLabel_daily (t : ℤ) : formatLabel t "daily" = .iso t := rfl

theorem formatLabel_weekly (t : ℤ) : formatLabel t "weekly" = .iso t := rfl

theorem formatLabel_monthly (t : ℤ) : formatLabel t "monthly" = .mmm (monthOf t) := rfl

theorem formatLabel_default (period : String) (t : ℤ)
    (h1 : period ≠ "monthly") (h2 : period ≠ "hourly") :
    formatLabel t period = .iso t := by
  unfold formatLabel
  rw [if_neg h1, if_neg h2]

theorem specFill_five (nd : List TxRecord) (period : String) (now p1 p2 p3 p4 p5 : ℤ) :
    specFill nd period now [p1, p2, p3, p4, p5] =
      [bucketFor nd (formatLabel p1 period) p1 p2,
       bucketFor nd (formatLabel p2 period) p2 p3,
       bucketFor nd (formatLabel p3 period) p3 p4,
       bucketFor nd (formatLabel p4 period) p4 p5,
       bucketFor nd (formatLabel p5 period) p5 now] := rfl

theorem labels_hourly (now : ℤ) :
    ((getPreviousPeriods now "hourly" 5).map (fun p => formatLabel p "hourly")).Nodup := by
  rw [periods_hourly]
  simp only [List.map_cons, List.map_nil, formatLabel_hourly]
  simp only [List.nodup_cons, List.mem_cons, List.mem_singleton, List.not_mem_nil,
    List.nodup_nil, and_true, not_or, BucketLabel.hh.injEq, not_false_eq_true]
  unfold hourOfDay startOfHour msPerHour
  omega

theorem labels_daily (now : ℤ) :
    ((getPreviousPeriods now "daily" 5).map (fun p => formatLabel p "daily")).Nodup := by
  rw [periods_daily]
  simp only [List.map_cons, List.map_nil, formatLabel_daily]
  simp only [List.nodup_cons, List.mem_cons, List.mem_singleton, List.not_mem_nil,
    List.nodup_nil, and_true, not_or, BucketLabel.iso.injEq, not_false_eq_true]
  unfold startOfDay msPerDay
  omega

theorem labels_weekly (now : ℤ) :
    ((getPreviousPeriods now "weekly" 5).map (fun p => formatLabel p "weekly")).Nodup := by
  rw [periods_weekly]
  simp only [List.map_cons, List.map_nil, formatLabel_weekly]
  simp only [List.nodup_cons, List.mem_cons, List.mem_singleton, List.not_mem_nil,
    List.nodup_nil, and_true, not_or, BucketLabel.iso.injEq, not_false_eq_true]
  unfold startOfWeek msPerDay
  dsimp only
  omega

theorem labels_monthly (now : ℤ) :
    ((getPreviousPeriods now "monthly" 5).map (fun p => formatLabel p "monthly")).Nodup := by
  rw [periods_default now "monthly" (by decide) (by decide) (by decide)]
  simp only [List.map_cons, List.map_nil, formatLabel_monthly]
  rw [monthOf_startOfMonth, monthOf_startOfMonth, monthOf_startOfMonth,
    monthOf_startOfMonth, monthOf_startOfMonth]
  obtain ⟨ha0, ha1, ha2⟩ := monthIdx_bounds now
  obtain ⟨hb0, hb1, hb2⟩ := monthIdx_bounds (subMonths now)
  obtain ⟨hc0, hc1, hc2⟩ := monthIdx_bounds (subMonths (subMonths now))
  obtain ⟨hd0, hd1, hd2⟩ := monthIdx_bounds (subMonths (subMonths (subMonths now)))
  obtain ⟨he0, he1, he2⟩ := monthIdx_bounds (subMonths (subMonths (subMonths (subMonths now))))
  have hs1 := monthIdx_subMonths now
  have hs2 := monthIdx_subMonths (subMonths now)
  have hs3 := monthIdx_subMonths (subMonths (subMonths now))
  have hs4 := monthIdx_subMonths (subMonths (subMonths (subMonths now)))
  simp only [List.nodup_cons, List.mem_cons, List.mem_singleton, List.not_mem_nil,
    List.nodup_nil, and_true, not_or, BucketLabel.mmm.injEq, not_false_eq_true]
  unfold monthOf
  omega

theorem labels_default (now : ℤ) (period : String)
    (h1 : period ≠ "hourly") (h2 : period ≠ "daily") (h3 : period ≠ "weekly")
    (h4 : period ≠ "monthly") :
    ((getPreviousPeriods now period 5).map (fun p => formatLabel p period)).Nodup := by
  rw [periods_default now period h1 h2 h3]
  simp only [List.map_cons, List.map_nil, formatLabel_default period _ h4 h1]
  have k1 := startOfMonth_subMonths_lt now
  have k2 := startOfMonth_subMonths_lt (subMonths now)
  have k3 := startOfMonth_subMonths_lt (subMonths (subMonths now))
  have k4 := startOfMonth_subMonths_lt (subMonths (subMonths (subMonths now)))
  simp only [List.nodup_cons, List.mem_cons, List.mem_singleton, List.not_mem_nil,
    List.nodup_nil, and_true, not_or, BucketLabel.iso.injEq, not_false_eq_true]
  omega

theorem organize_core (nd : List TxRecord) (period : String) (now p1 p2 p3 p4 p5 : ℤ)
    (hper : getPreviousPeriods now period 5 = [p1, p2, p3, p4, p5])
    (hnd : ((getPreviousPeriods now period 5).map (fun p => formatLabel p period)).Nodup)
    (h12 : p1 < p2) (h23 : p2 < p3) (h34 : p3 < p4) (h45 : p4 < p5) (h5n : p5 ≤ now) :
    (organizeData nd period now).length = 5 ∧
    List.Chain' (· < ·) (bucketStarts now period) ∧
    sumReq (organizeData nd period now) ≤ nd.length ∧
    ((∀ r ∈ nd, (bucketStarts now period).getD 0 0 < r.ts * 1000 ∧ r.ts * 1000 < now ∧
        r.ts * 1000 ∉ bucketStarts now period) →
      sumReq (organizeData nd period now) = nd.length) := by
  have hbs : bucketStarts now period = [p1, p2, p3, p4, p5] := hper
  rw [organizeData_eq_specFill nd period now hnd, hper, specFill_five, hbs]
  obtain ⟨hw1, hw2⟩ := sum_five_windows p1 p2 p3 p4 p5 now h12 h23 h34 h45 h5n nd
  refine ⟨rfl, ?_, ?_, ?_⟩
  · simp only [List.chain'_cons, List.chain'_singleton, and_true]
    exact ⟨h12, h23, h34, h45⟩
  · simp only [sumReq, List.map_cons, List.map_nil, bucketFor_eq, List.sum_cons,
      List.sum_nil, add_zero]
    omega
  · intro hall
    simp only [sumReq, List.map_cons, List.map_nil, bucketFor_eq, List.sum_cons,
      List.sum_nil, add_zero]
    have := hw2 ?_
    · omega
    · intro r hr
      obtain ⟨hx1, hx2, hx3⟩ := hall r hr
      simp only [List.getD_cons_zero] at hx1
      simp only [List.mem_cons, List.mem_singleton, List.not_mem_nil, or_false,
        not_or] at hx3
      exact ⟨hx1, hx2, hx3.2.1, hx3.2.2.1, hx3.2.2.2.1, hx3.2.2.2.2⟩

/-- **C2** (amended).  For every record list, period, and `now`:
`organizeData` returns exactly 5 buckets; the aligned bucket start
instants strictly increase (oldest first); the sum of the buckets'
request counts is at most the number of records, with equality when
every record's millisecond instant lies strictly between the first
bucket's start and `now` and on no bucket start boundary (a record
exactly on an interior boundary is dropped by the exclusive membership
test). -/
theorem claim_C2 (period : String) (now : ℤ) (nd : List TxRecord) :
    (organizeData nd period now).length = 5 ∧
    List.Chain' (· < ·) (bucketStarts now period) ∧
    sumReq (organizeData nd period now) ≤ nd.length ∧
    ((∀ r ∈ nd, (bucketStarts now period).getD 0 0 < r.ts * 1000 ∧ r.ts * 1000 < now ∧
        r.ts * 1000 ∉ bucketStarts now period) →
      sumReq (organizeData nd period now) = nd.length) := by
  by_cases hh : period = "hourly"
  · subst hh
    refine organize_core nd "hourly" now _ _ _ _ _ (periods_hourly now)
      (labels_hourly now) ?_ ?_ ?_ ?_ ?_ <;> (unfold startOfHour msPerHour ; omega)
  by_cases hd : period = "daily"
  · subst hd
    refine organize_core nd "daily" now _ _ _ _ _ (periods_daily now)
      (labels_daily now) ?_ ?_ ?_ ?_ ?_ <;> (unfold startOfDay msPerDay ; omega)
  by_cases hw : period = "weekly"
  · subst hw
    refine organize_core nd "weekly" now _ _ _ _ _ (periods_weekly now)
      (labels_weekly now) ?_ ?_ ?_ ?_ ?_ <;>
      (unfold startOfWeek msPerDay ; dsimp only ; omega)
  by_cases hm : period = "monthly"
  · subst hm
    exact organize_core nd "monthly" now _ _ _ _ _
      (periods_default now "monthly" (by decide) (by decide) (by decide))
      (labels_monthly now)
      (startOfMonth_subMonths_lt (subMonths (subMonths (subMonths now))))
      (startOfMonth_subMonths_lt (subMonths (subMonths now)))
      (startOfMonth_subMonths_lt (subMonths now))
      (startOfMonth_subMonths_lt now)
      (startOfMonth_le now)
  · exact organize_core nd period now _ _ _ _ _
      (periods_default now period hh hd hw)
      (labels_default now period hh hd hw hm)
      (startOfMonth_subMonths_lt (subMonths (subMonths (subMonths now))))
      (startOfMonth_subMonths_lt (subMonths (subMonths now)))
      (startOfMonth_subMonths_lt (subMonths now))
      (startOfMonth_subMonths_lt now)
      (startOfMonth_le now)

/-- **C2** (counterexample to the claim as stated). -/
theorem claim_C2_counterexample :
    (bucketStarts scenarioNow "hourly").getD 0 0 = 3600000 ∧
    boundaryRecord.ts * 1000 = 7200000 ∧
    (3600000 : ℤ) < 7200000 ∧ (7200000 : ℤ) < scenarioNow ∧
    (organizeData [boundaryRecord] "hourly" scenarioNow).length = 5 ∧
    sumReq (organizeData [boundaryRecord] "hourly" scenarioNow) = 0 ∧
    [boundaryRecord].length = 1 := by decide

theorem claim_C2_witness :
    sumReq (organizeData [insideRecord] "hourly" scenarioNow) = 1 :=
  (claim_C2 "hourly" scenarioNow [insideRecord]).2.2.2 (by decide)

theorem organize_explicit (nd : List TxRecord) (period : String) (now p1 p2 p3 p4 p5 : ℤ)
    (hper : getPreviousPeriods now period 5 = [p1, p2, p3, p4, p5])
    (hnd : ((getPreviousPeriods now period 5).map (fun p => formatLabel p period)).Nodup) :
    organizeData nd period now =
      [⟨formatLabel p1 period, countIn nd p1 p2, countErrIn nd p1 p2⟩,
       ⟨formatLabel p2 period, countIn nd p2 p3, countErrIn nd p2 p3⟩,
       ⟨formatLabel p3 period, countIn nd p3 p4, countErrIn nd p3 p4⟩,
       ⟨formatLabel p4 period, countIn nd p4 p5, countErrIn nd p4 p5⟩,
       ⟨formatLabel p5 period, countIn nd p5 now, countErrIn nd p5 now⟩] := by
  rw [organizeData_eq_specFill nd period now hnd, hper, specFill_five]
  simp only [bucketFor_eq]

theorem c3_core (nd : List TxRecord) (period : String) (now p1 p2 p3 p4 p5 : ℤ)
    (hper : getPreviousPeriods now period 5 = [p1, p2, p3, p4, p5])
    (hnd : ((getPreviousPeriods now period 5).map (fun p => formatLabel p period)).Nodup)
    (i : ℕ) (hi : i < 5) :
    ((organizeData nd period now).getD i ⟨.iso 0, 0, 0⟩).req =
      countIn nd ((bucketStarts now period).getD i 0) ((bucketEnds now period).getD i 0) ∧
    ((organizeData nd period now).getD i ⟨.iso 0, 0, 0⟩).error =
      countErrIn nd ((bucketStarts now period).getD i 0) ((bucketEnds now period).getD i 0) ∧
    countIn nd ((bucketStarts now period).getD i 0) ((bucketEnds now period).getD i 0) =
      (nd.filter (fun item => (bucketStarts now period).getD i 0 < item.ts * 1000 ∧
        item.ts * 1000 < (bucketEnds now period).getD i 0)).length ∧
    (∀ item : TxRecord,
      item.ts * 1000 = (bucketStarts now period).getD i 0 ∨
      item.ts * 1000 = (bucketEnds now period).getD i 0 →
      ¬ ((bucketStarts now period).getD i 0 < item.ts * 1000 ∧
         item.ts * 1000 < (bucketEnds now period).getD i 0)) := by
  have hbs : bucketStarts now period = [p1, p2, p3, p4, p5] := hper
  have hbe : bucketEnds now period = [p2, p3, p4, p5, now] := by
    unfold bucketEnds
    rw [hper]
    rfl
  rw [organize_explicit nd period now p1 p2 p3 p4 p5 hper hnd, hbs, hbe]
  interval_cases i <;>
    exact ⟨rfl, rfl, countIn_eq_filter nd _ _, fun item h => by omega⟩

/-- **C3** (confirmed).  Bucket `i`'s `req` is the number of records
whose instant lies strictly inside `(start_i, end_i)`, and its `error`
the number of those with status ≥ 400; the window test is exclusive at
both endpoints, so a record falling exactly on a bucket boundary is
counted in neither adjacent bucket. -/
theorem claim_C3 (period : String) (now : ℤ) (nd : List TxRecord) (i : ℕ) (hi : i < 5) :
    ((organizeData nd period now).getD i ⟨.iso 0, 0, 0⟩).req =
      countIn nd ((bucketStarts now period).getD i 0) ((bucketEnds now period).getD i 0) ∧
    ((organizeData nd period now).getD i ⟨.iso 0, 0, 0⟩).error =
      countErrIn nd ((bucketStarts now period).getD i 0) ((bucketEnds now period).getD i 0) ∧
    countIn nd ((bucketStarts now period).getD i 0) ((bucketEnds now period).getD i 0) =
      (nd.filter (fun item => (bucketStarts now period).getD i 0 < item.ts * 1000 ∧
        item.ts * 1000 < (bucketEnds now period).getD i 0)).length ∧
    (∀ item : TxRecord,
      item.ts * 1000 = (bucketStarts now period).getD i 0 ∨
      item.ts * 1000 = (bucketEnds now period).getD i 0 →
      ¬ ((bucketStarts now period).getD i 0 < item.ts * 1000 ∧
         item.ts * 1000 < (bucketEnds now period).getD i 0)) := by
  by_cases hh : period = "hourly"
  · subst hh
    exact c3_core nd "hourly" now _ _ _ _ _ (periods_hourly now) (labels_hourly now) i hi
  by_cases hd : period = "daily"
  · subst hd
    exact c3_core nd "daily" now _ _ _ _ _ (periods_daily now) (labels_daily now) i hi
  by_cases hw : period = "weekly"
  · subst hw
    exact c3_core nd "weekly" now _ _ _ _ _ (periods_weekly now) (labels_weekly now) i hi
  by_cases hm : period = "monthly"
  · subst hm
    exact c3_core nd "monthly" now _ _ _ _ _
      (periods_default now "monthly" (by decide) (by decide) (by decide))
      (labels_monthly now) i hi
  · exact c3_core nd period now _ _ _ _ _
      (periods_default now period hh hd hw)
      (labels_default now period hh hd hw hm) i hi

theorem claim_C3_witness :
    ((organizeData [insideRecord] "hourly" scenarioNow).getD 0 ⟨.iso 0, 0, 0⟩).req =
      countIn [insideRecord] ((bucketStarts scenarioNow "hourly").getD 0 0)
        ((bucketEnds scenarioNow "hourly").getD 0 0) :=
  (claim_C3 "hourly" scenarioNow [insideRecord] 0 (by decide)).1

theorem upsert_values (dm : List (BucketLabel × Bucket)) (k : BucketLabel) (v : Bucket) :
    ∀ b ∈ (upsert dm k v).map Prod.snd, b ∈ dm.map Prod.snd ∨ b = v := by
  induction dm with
  | nil =>
      intro b hb
      simp only [upsert, List.map_cons, List.map_nil, List.mem_singleton] at hb
      exact Or.inr hb
  | cons kv rest ih =>
      obtain ⟨k0, v0⟩ := kv
      intro b hb
      unfold upsert at hb
      split_ifs at hb with hk
      · simp only [List.map_cons, List.mem_cons] at hb ⊢
        rcases hb with hb | hb
        · exact Or.inr hb
        · exact Or.inl (Or.inr hb)
      · simp only [List.map_cons, List.mem_cons] at hb ⊢
        rcases hb with hb | hb
        · exact Or.inl (Or.inl hb)
        · rcases ih b hb with h | h
          · exact Or.inl (Or.inr h)
          · exact Or.inr h

theorem fillBuckets_values (nd : List TxRecord) (period : String) (now : ℤ) :
    ∀ ps : List ℤ, ∀ dm : List (BucketLabel × Bucket),
    ∀ b ∈ (fillBuckets nd period now ps dm).map Prod.snd,
      b ∈ dm.map Prod.snd ∨ ∃ nm s e, b = bucketFor nd nm s e
  | [], dm => fun b hb => Or.inl hb
  | [p], dm => by
      intro b hb
      unfold fillBuckets at hb
      rcases upsert_values dm _ _ b hb with h | h
      · exact Or.inl h
      · exact Or.inr ⟨_, _, _, h⟩
  | p :: q :: rest, dm => by
      intro b hb
      unfold fillBuckets at hb
      rcases fillBuckets_values nd period now (q :: rest) _ b hb with h | h
      · rcases upsert_values dm _ _ b h with h2 | h2
        · exact Or.inl h2
        · exact Or.inr ⟨_, _, _, h2⟩
      · exact Or.inr h

/-- **C4** (confirmed).  In every bucket `organizeData` outputs,
`error ≤ req`, both counts are naturals (hence non-negative), and they
count the in-window records and the in-window records with
status ≥ 400 over one common window. -/
theorem claim_C4 (period : String) (now : ℤ) (nd : List TxRecord) (b : Bucket)
    (hb : b ∈ organizeData nd period now) :
    b.error ≤ b.req ∧
    ∃ s e, b.req = countIn nd s e ∧ b.error = countErrIn nd s e := by
  unfold organizeData at hb
  rcases fillBuckets_values nd period now _ [] b hb with h | ⟨nm, s, e, h⟩
  · simp at h
  · rw [bucketFor_eq] at h
    subst h
    exact ⟨countErrIn_le_countIn nd s e, s, e, rfl, rfl⟩

theorem claim_C4_witness :
    ((organizeData [insideRecord] "hourly" scenarioNow).getD 0 ⟨.iso 0, 0, 0⟩).error ≤
      ((organizeData [insideRecord] "hourly" scenarioNow).getD 0 ⟨.iso 0, 0, 0⟩).req :=
  (claim_C4 "hourly" scenarioNow [insideRecord] _ (by decide)).1

/-- **C5** (counterexample). -/
theorem claim_C5_counterexample :
    ((organizeData [] "yearly" lateNow).getD 0 ⟨.iso 0, 0, 0⟩).name =
      .iso 1688169600000 ∧
    ∀ m : ℤ, ((organizeData [] "yearly" lateNow).getD 0 ⟨.iso 0, 0, 0⟩).name ≠ .mmm m := by
  have h : ((organizeData [] "yearly" lateNow).getD 0 ⟨.iso 0, 0, 0⟩).name =
      .iso 1688169600000 := by
    set_option maxRecDepth 10000 in decide
  refine ⟨h, ?_⟩
  rw [h]
  intro m
  simp

/-- **C5** (amended).  For every period value outside
`{hourly, daily, weekly, monthly}`, the aggregator falls back to the
monthly rules for alignment (start of month) and stepping (subtract one
month), but the bucket labels use the full ISO-8601 instant format, not
the abbreviated `MMM` month name: the label ternary tests
`period === 'monthly'`, which is false for unknown periods. -/
theorem claim_C5 (period : String)
    (h1 : period ≠ "hourly") (h2 : period ≠ "daily") (h3 : period ≠ "weekly")
    (h4 : period ≠ "monthly") (now t : ℤ) (nd : List TxRecord) :
    getStartOfPeriod t period = startOfMonth t ∧
    stepBack t period = subMonths t ∧
    (organizeData nd period now).map Bucket.name =
      (getPreviousPeriods now period 5).map (fun p => BucketLabel.iso p) := by
  refine ⟨getStartOfPeriod_default period h1 h2 h3 t, stepBack_default period h1 h2 h3 t, ?_⟩
  have hper := periods_default now period h1 h2 h3
  rw [organize_explicit nd period now _ _ _ _ _ hper
    (labels_default now period h1 h2 h3 h4), hper]
  simp only [List.map_cons, List.map_nil, formatLabel_default period _ h4 h1]

theorem claim_C5_witness :
    getStartOfPeriod lateNow "yearly" = startOfMonth lateNow :=
  (claim_C5 "yearly" (by decide) (by decide) (by decide) (by decide) lateNow lateNow []).1

/-! ## FlowGraphBuilder: the state invariant -/

theorem alookup_cons {α β : Type} [DecidableEq α] (k : α) (v : β) (l : List (α × β)) (a : α) :
    alookup ((k, v) :: l) a = if k = a then some v else alookup l a := rfl

theorem alookup_append {α β : Type} [DecidableEq α] (l1 l2 : List (α × β)) (a : α) :
    alookup (l1 ++ l2) a =
      match alookup l1 a with
      | some b => some b
      | none => alookup l2 a := by
  induction l1 with
  | nil => rfl
  | cons kv rest ih =>
      obtain ⟨k, v⟩ := kv
      rw [List.cons_append, alookup_cons, alookup_cons]
      by_cases h : k = a
      · rw [if_pos h, if_pos h]
      · rw [if_neg h, if_neg h, ih]

theorem getD_append_left {α : Type} (l1 l2 : List α) (i : ℕ) (d : α) (h : i < l1.length) :
    (l1 ++ l2).getD i d = l1.getD i d := by
  unfold List.getD
  rw [List.get?_append h]

theorem getD_append_right_self {α : Type} (l1 : List α) (x d : α) :
    (l1 ++ [x]).getD l1.length d = x := by
  unfold List.getD
  rw [List.get?_append_right (le_refl _)]
  simp

theorem getD_eq_get {α : Type} (l : List α) (i : ℕ) (d : α) (h : i < l.length) :
    l.getD i d = l.get ⟨i, h⟩ := by
  unfold List.getD
  rw [List.get?_eq_get h]
  rfl

theorem getD_mem {α : Type} (l : List α) (i : ℕ) (d : α) (h : i < l.length) :
    l.getD i d ∈ l := by
  rw [getD_eq_get l i d h]
  exact List.get_mem l i h

theorem nodeName_inj (st : SankeyState) (ts : List (String × String)) (hinv : SInv st ts)
    (i j : ℕ) (hi : i < st.nodes.length) (hj : j < st.nodes.length)
    (h : nodeName st i = nodeName st j) : i = j := by
  unfold nodeName at h
  rw [getD_eq_get _ _ _ hi, getD_eq_get _ _ _ hj] at h
  have hmap : (st.nodes.map SNode.name).get ⟨i, by simpa using hi⟩ =
      (st.nodes.map SNode.name).get ⟨j, by simpa using hj⟩ := by
    simp only [List.get_map]
    exact h
  have := (List.Nodup.get_inj_iff hinv.nnd).mp hmap
  simpa using this

theorem getNodeIndex_spec (st : SankeyState) (ts : List (String × String))
    (name : String) (hinv : SInv st ts) :
    SInv (getNodeIndex st name).1 ts ∧
    (getNodeIndex st name).1.links = st.links ∧
    (getNodeIndex st name).1.linkIndex = st.linkIndex ∧
    st.nodes.length ≤ (getNodeIndex st name).1.nodes.length ∧
    (getNodeIndex st name).2 < (getNodeIndex st name).1.nodes.length ∧
    nodeName (getNodeIndex st name).1 (getNodeIndex st name).2 = name ∧
    (∀ i : ℕ, i < st.nodes.length → nodeName (getNodeIndex st name).1 i = nodeName st i) := by
  unfold getNodeIndex
  cases ha : alookup st.nodeIndex name with
  | some i =>
      obtain ⟨hlt, hname⟩ := hinv.nidx_some name i ha
      exact ⟨hinv, rfl, rfl, le_refl _, hlt, hname, fun _ _ => rfl⟩
  | none =>
      have hfresh := hinv.nidx_none name ha
      dsimp only
      have hpres : ∀ i : ℕ, i < st.nodes.length →
          nodeName ⟨st.nodes ++ [⟨name, st.nodes.length⟩],
            st.nodeIndex ++ [(name, st.nodes.length)], st.links, st.linkIndex⟩ i =
          nodeName st i := by
        intro i hi
        unfold nodeName
        exact congrArg SNode.name (getD_append_left _ _ _ _ hi)
      constructor
      · constructor
        · -- nidx_some
          intro a i hla
          rw [alookup_append] at hla
          cases hb : alookup st.nodeIndex a with
          | some i0 =>
              rw [hb] at hla
              cases hla
              obtain ⟨hlt, hname⟩ := hinv.nidx_some a _ hb
              refine ⟨by simpa using Nat.lt_succ_of_lt (by simpa using hlt), ?_⟩
              rw [hpres _ hlt]
              exact hname
          | none =>
              rw [hb] at hla
              rw [alookup_cons] at hla
              by_cases hn : name = a
              · rw [if_pos hn] at hla
                cases hla
                subst hn
                refine ⟨by simp, ?_⟩
                unfold nodeName
                rw [getD_append_right_self]
              · rw [if_neg hn] at hla
                cases hla
        · -- nidx_none
          intro a hla nd hnd
          rw [alookup_append] at hla
          cases hb : alookup st.nodeIndex a with
          | some i0 => rw [hb] at hla; cases hla
          | none =>
              rw [hb] at hla
              rw [alookup_cons] at hla
              by_cases hn : name = a
              · rw [if_pos hn] at hla; cases hla
              · rw [if_neg hn] at hla
                simp only [List.mem_append, List.mem_singleton] at hnd
                rcases hnd with hnd | hnd
                · exact hinv.nidx_none a hb nd hnd
                · subst hnd; exact hn
        · -- npos
          intro k h
          by_cases hk : k < st.nodes.length
          · rw [List.get_append _ (by simpa using hk)]
            exact hinv.npos k hk
          · have hkl : k = st.nodes.length := by
              simp only [List.length_append, List.length_singleton] at h
              omega
            subst hkl
            have : (st.nodes ++ [(⟨name, st.nodes.length⟩ : SNode)]).get ⟨st.nodes.length, h⟩ =
                (⟨name, st.nodes.length⟩ : SNode) := by
              rw [← getD_eq_get _ _ ⟨"", 0⟩ h, getD_append_right_self]
            rw [this]
        · -- nnd
          simp only [List.map_append, List.map_cons, List.map_nil]
          rw [List.nodup_append]
          refine ⟨hinv.nnd, List.nodup_singleton _, ?_⟩
          intro a ha2 hb2
          simp only [List.mem_singleton] at hb2
          subst hb2
          obtain ⟨nd, hnd, hname⟩ := List.mem_map.mp ha2
          exact hfresh nd hnd hname
        · -- lidx_some
          exact hinv.lidx_some
        · -- lidx_none
          exact hinv.lidx_none
        · -- lnd
          exact hinv.lnd
        · -- lvalid
          intro j hj
          obtain ⟨h1, h2⟩ := hinv.lvalid j hj
          simp only [List.length_append, List.length_singleton]
          omega
        · -- lweight
          intro j hj
          have hw := hinv.lweight j hj
          obtain ⟨h1, h2⟩ := hinv.lvalid j hj
          rw [hpres _ h1, hpres _ h2]
          exact hw
        · -- lcover
          intro ab hab
          obtain ⟨j, hj, hn1, hn2⟩ := hinv.lcover ab hab
          obtain ⟨h1, h2⟩ := hinv.lvalid j hj
          refine ⟨j, hj, ?_, ?_⟩
          · rw [hpres _ h1]; exact hn1
          · rw [hpres _ h2]; exact hn2
      · refine ⟨rfl, rfl, by simp, by simp, ?_, hpres⟩
        unfold nodeName
        dsimp only
        rw [getD_append_right_self]

theorem bumpValue_length (l : List SLink) (k : ℕ) : (bumpValue l k).length = l.length := by
  induction l generalizing k with
  | nil => rfl
  | cons x rest ih =>
      cases k with
      | zero => rfl
      | succ n => simp only [bumpValue, List.length_cons, ih]

theorem bumpValue_getD (l : List SLink) (k j : ℕ) (d : SLink) :
    (bumpValue l k).getD j d =
      if j = k ∧ k < l.length then
        { l.getD j d with value := (l.getD j d).value + 1 }
      else l.getD j d := by
  induction l generalizing k j with
  | nil =>
      simp only [bumpValue, List.length_nil]
      rw [if_neg (by omega)]
  | cons x rest ih =>
      cases k with
      | zero =>
          cases j with
          | zero => simp [bumpValue]
          | succ m =>
              simp only [bumpValue, List.length_cons]
              rw [if_neg (by omega)]
              rfl
      | succ n =>
          cases j with
          | zero =>
              simp only [bumpValue, List.length_cons]
              rw [if_neg (by omega)]
              rfl
          | succ m =>
              simp only [bumpValue, List.length_cons]
              show (bumpValue rest n).getD m d = _
              rw [ih n m]
              by_cases h : m = n ∧ n < rest.length
              · rw [if_pos h, if_pos (by omega)]
                rfl
              · rw [if_neg h, if_neg (by omega)]
                rfl

theorem getLinkIndex_spec (st : SankeyState) (ts : List (String × String))
    (i j : ℕ) (hinv : SInv st ts)
    (hi : i < st.nodes.length) (hj : j < st.nodes.length) :
    SInv (getLinkIndex st i j) (ts ++ [(nodeName st i, nodeName st j)]) ∧
    (getLinkIndex st i j).nodes = st.nodes ∧
    (getLinkIndex st i j).nodeIndex = st.nodeIndex := by
  unfold getLinkIndex
  cases hl : alookup st.linkIndex (i, j) with
  | some k =>
      obtain ⟨hk, hpair⟩ := hinv.lidx_some (i, j) k hl
      have hsrc : (st.links.getD k ⟨0, 0, 0⟩).source = i := by
        have := congrArg Prod.fst hpair
        simpa using this
      have htgt : (st.links.getD k ⟨0, 0, 0⟩).target = j := by
        have := congrArg Prod.snd hpair
        simpa using this
      dsimp only
      refine ⟨?_, rfl, rfl⟩
      constructor
      · exact hinv.nidx_some
      · exact hinv.nidx_none
      · exact hinv.npos
      · exact hinv.nnd
      · -- lidx_some
        intro p k0 hk0
        obtain ⟨h1, h2⟩ := hinv.lidx_some p k0 hk0
        rw [bumpValue_length]
        refine ⟨h1, ?_⟩
        rw [bumpValue_getD]
        by_cases he : k0 = k ∧ k < st.links.length
        · rw [if_pos he]
          obtain ⟨he1, _⟩ := he
          subst he1
          simpa using h2
        · rw [if_neg he]
          exact h2
      · -- lidx_none
        intro p hp j0 hj0
        rw [bumpValue_length] at hj0
        have := hinv.lidx_none p hp j0 hj0
        rw [bumpValue_getD]
        by_cases he : j0 = k ∧ k < st.links.length
        · rw [if_pos he]
          simpa using this
        · rw [if_neg he]
          exact this
      · -- lnd
        intro j0 k0 hj0 hk0 hpe
        rw [bumpValue_length] at hj0 hk0
        rw [bumpValue_getD, bumpValue_getD] at hpe
        refine hinv.lnd j0 k0 hj0 hk0 ?_
        by_cases h1 : j0 = k ∧ k < st.links.length
        · rw [if_pos h1] at hpe
          by_cases h2 : k0 = k ∧ k < st.links.length
          · rw [if_pos h2] at hpe
            simpa using hpe
          · rw [if_neg h2] at hpe
            simpa using hpe
        · rw [if_neg h1] at hpe
          by_cases h2 : k0 = k ∧ k < st.links.length
          · rw [if_pos h2] at hpe
            simpa using hpe
          · rw [if_neg h2] at hpe
            exact hpe
      · -- lvalid
        intro j0 hj0
        rw [bumpValue_length] at hj0
        obtain ⟨h1, h2⟩ := hinv.lvalid j0 hj0
        rw [bumpValue_getD]
        by_cases he : j0 = k ∧ k < st.links.length
        · rw [if_pos he]
          exact ⟨h1, h2⟩
        · rw [if_neg he]
          exact ⟨h1, h2⟩
      · -- lweight
        intro j0 hj0
        rw [bumpValue_length] at hj0
        have hw := hinv.lweight j0 hj0
        have hnN : ∀ x : ℕ,
            nodeName ⟨st.nodes, st.nodeIndex, bumpValue st.links k, st.linkIndex⟩ x =
            nodeName st x := fun _ => rfl
        have hfilter : ∀ s t : ℕ,
            ((ts ++ [(nodeName st i, nodeName st j)]).filter fun ab =>
              ab.1 = nodeName st s ∧ ab.2 = nodeName st t).length =
            (ts.filter fun ab => ab.1 = nodeName st s ∧ ab.2 = nodeName st t).length +
              (if nodeName st i = nodeName st s ∧ nodeName st j = nodeName st t
               then 1 else 0) := by
          intro s t
          rw [List.filter_append]
          simp only [List.length_append]
          congr 1
          by_cases hc : nodeName st i = nodeName st s ∧ nodeName st j = nodeName st t
          · rw [if_pos hc]
            simp [hc.1, hc.2]
          · rw [if_neg hc]
            rw [Classical.not_and_iff_or_not_not] at hc
            rcases hc with hc | hc <;> simp [hc]
        rw [bumpValue_getD]
        simp only [hnN]
        by_cases he : j0 = k ∧ k < st.links.length
        · rw [if_pos he]
          obtain ⟨he1, _⟩ := he
          subst he1
          dsimp only
          rw [hfilter, hw, hsrc, htgt]
          rw [if_pos ⟨rfl, rfl⟩]
        · rw [if_neg he]
          rw [hfilter, hw]
          have hppair : ((st.links.getD j0 ⟨0, 0, 0⟩).source,
              (st.links.getD j0 ⟨0, 0, 0⟩).target) ≠ (i, j) := by
            intro hcon
            exact he ⟨hinv.lnd j0 k hj0 hk (by rw [hcon, hpair]), hk⟩
          rw [if_neg ?_]
          · omega
          · intro hcon
            obtain ⟨hv1, hv2⟩ := hinv.lvalid j0 hj0
            have e1 : (st.links.getD j0 ⟨0, 0, 0⟩).source = i :=
              nodeName_inj st ts hinv _ i hv1 hi hcon.1.symm
            have e2 : (st.links.getD j0 ⟨0, 0, 0⟩).target = j :=
              nodeName_inj st ts hinv _ j hv2 hj hcon.2.symm
            exact hppair (by rw [e1, e2])
      · -- lcover
        intro ab hab
        rw [List.mem_append] at hab
        rcases hab with hab | hab
        · obtain ⟨j0, hj0, hn1, hn2⟩ := hinv.lcover ab hab
          refine ⟨j0, by rw [bumpValue_length]; exact hj0, ?_, ?_⟩ <;>
            rw [bumpValue_getD] <;>
            by_cases he : j0 = k ∧ k < st.links.length
          · rw [if_pos he]; exact hn1
          · rw [if_neg he]; exact hn1
          · rw [if_pos he]; exact hn2
          · rw [if_neg he]; exact hn2
        · simp only [List.mem_singleton] at hab
          subst hab
          refine ⟨k, by rw [bumpValue_length]; exact hk, ?_, ?_⟩ <;>
            rw [bumpValue_getD, if_pos ⟨rfl, hk⟩]
          · show nodeName _ (st.links.getD k ⟨0, 0, 0⟩).source = _
            rw [hsrc]
            rfl
          · show nodeName _ (st.links.getD k ⟨0, 0, 0⟩).target = _
            rw [htgt]
            rfl
  | none =>
      have hfresh := hinv.lidx_none (i, j) hl
      dsimp only
      have hnN : ∀ x : ℕ,
          nodeName ⟨st.nodes, st.nodeIndex, st.links ++ [⟨i, j, 1⟩],
            st.linkIndex ++ [((i, j), st.links.length)]⟩ x = nodeName st x := fun _ => rfl
      have hgetlt : ∀ j0 : ℕ, j0 < st.links.length →
          (st.links ++ [(⟨i, j, 1⟩ : SLink)]).getD j0 ⟨0, 0, 0⟩ =
            st.links.getD j0 ⟨0, 0, 0⟩ := by
        intro j0 h
        exact getD_append_left _ _ _ _ h
      have hgetlast : (st.links ++ [(⟨i, j, 1⟩ : SLink)]).getD st.links.length ⟨0, 0, 0⟩ =
          ⟨i, j, 1⟩ := getD_append_right_self _ _ _
      have hnames_absent : ∀ ab ∈ ts, ab.1 = nodeName st i → ab.2 = nodeName st j → False := by
        intro ab hab ha1 ha2
        obtain ⟨j1, hj1, hn1, hn2⟩ := hinv.lcover ab hab
        obtain ⟨hv1, hv2⟩ := hinv.lvalid j1 hj1
        have e1 : (st.links.getD j1 ⟨0, 0, 0⟩).source = i :=
          nodeName_inj st ts hinv _ i hv1 hi (by rw [hn1, ha1])
        have e2 : (st.links.getD j1 ⟨0, 0, 0⟩).target = j :=
          nodeName_inj st ts hinv _ j hv2 hj (by rw [hn2, ha2])
        exact hfresh j1 hj1 (by rw [e1, e2])
      constructor
      · constructor
        · exact hinv.nidx_some
        · exact hinv.nidx_none
        · exact hinv.npos
        · exact hinv.nnd
        · -- lidx_some
          intro p k0 hk0
          rw [alookup_append] at hk0
          cases hb : alookup st.linkIndex p with
          | some k1 =>
              rw [hb] at hk0
              cases hk0
              obtain ⟨h1, h2⟩ := hinv.lidx_some p _ hb
              rw [List.length_append, List.length_singleton]
              exact ⟨by omega, by rw [hgetlt _ h1]; exact h2⟩
          | none =>
              rw [hb] at hk0
              rw [alookup_cons] at hk0
              by_cases hp : (i, j) = p
              · rw [if_pos hp] at hk0
                cases hk0
                rw [List.length_append, List.length_singleton]
                refine ⟨by omega, ?_⟩
                rw [hgetlast]
                exact hp
              · rw [if_neg hp] at hk0
                cases hk0
        · -- lidx_none
          intro p hp j0 hj0
          rw [alookup_append] at hp
          cases hb : alookup st.linkIndex p with
          | some k1 => rw [hb] at hp; cases hp
          | none =>
              rw [hb] at hp
              rw [alookup_cons] at hp
              by_cases hpe : (i, j) = p
              · rw [if_pos hpe] at hp; cases hp
              · rw [if_neg hpe] at hp
                rw [List.length_append, List.length_singleton] at hj0
                by_cases hj0l : j0 < st.links.length
                · rw [hgetlt _ hj0l]
                  exact hinv.lidx_none p hb j0 hj0l
                · have : j0 = st.links.length := by omega
                  subst this
                  rw [hgetlast]
                  exact hpe
        · -- lnd
          intro j0 k0 hj0 hk0 hpe
          rw [List.length_append, List.length_singleton] at hj0 hk0
          by_cases hj0l : j0 < st.links.length <;> by_cases hk0l : k0 < st.links.length
          · rw [hgetlt _ hj0l, hgetlt _ hk0l] at hpe
            exact hinv.lnd j0 k0 hj0l hk0l hpe
          · have hk0e : k0 = st.links.length := by omega
            subst hk0e
            rw [hgetlt _ hj0l, hgetlast] at hpe
            exact absurd hpe (hfresh j0 hj0l)
          · have hj0e : j0 = st.links.length := by omega
            subst hj0e
            rw [hgetlast, hgetlt _ hk0l] at hpe
            exact absurd hpe.symm (hfresh k0 hk0l)
          · omega
        · -- lvalid
          intro j0 hj0
          rw [List.length_append, List.length_singleton] at hj0
          by_cases hj0l : j0 < st.links.length
          · rw [hgetlt _ hj0l]
            exact hinv.lvalid j0 hj0l
          · have : j0 = st.links.length := by omega
            subst this
            rw [hgetlast]
            exact ⟨hi, hj⟩
        · -- lweight
          intro j0 hj0
          rw [List.length_append, List.length_singleton] at hj0
          simp only [hnN]
          rw [List.filter_append]
          by_cases hj0l : j0 < st.links.length
          · rw [hgetlt _ hj0l]
            have hw := hinv.lweight j0 hj0l
            have hz : (List.filter (fun ab =>
                ab.1 = nodeName st (st.links.getD j0 ⟨0, 0, 0⟩).source ∧
                ab.2 = nodeName st (st.links.getD j0 ⟨0, 0, 0⟩).target)
                [(nodeName st i, nodeName st j)]).length = 0 := by
              rw [List.length_eq_zero]
              rw [List.filter_eq_nil]
              intro ab hab
              simp only [List.mem_singleton] at hab
              subst hab
              simp only [decide_eq_true_eq, not_and]
              intro h1 h2
              obtain ⟨hv1, hv2⟩ := hinv.lvalid j0 hj0l
              have e1 : i = (st.links.getD j0 ⟨0, 0, 0⟩).source :=
                nodeName_inj st ts hinv i _ hi hv1 h1
              have e2 : j = (st.links.getD j0 ⟨0, 0, 0⟩).target :=
                nodeName_inj st ts hinv j _ hj hv2 h2
              exact hfresh j0 hj0l (by rw [← e1, ← e2])
            rw [List.length_append, hz, hw]
            omega
          · have : j0 = st.links.length := by omega
            subst this
            rw [hgetlast]
            have hz : (List.filter (fun ab =>
                ab.1 = nodeName st (⟨i, j, 1⟩ : SLink).source ∧
                ab.2 = nodeName st (⟨i, j, 1⟩ : SLink).target) ts).length = 0 := by
              rw [List.length_eq_zero, List.filter_eq_nil]
              intro ab hab
              simp only [decide_eq_true_eq, not_and]
              intro h1 h2
              exact hnames_absent ab hab h1 h2
            rw [List.length_append, hz]
            simp
        · -- lcover
          intro ab hab
          rw [List.mem_append] at hab
          rcases hab with hab | hab
          · obtain ⟨j0, hj0, hn1, hn2⟩ := hinv.lcover ab hab
            refine ⟨j0, ?_, ?_, ?_⟩
            · rw [List.length_append, List.length_singleton]
              omega
            · rw [hgetlt _ hj0]
              rw [hnN]
              exact hn1
            · rw [hgetlt _ hj0]
              rw [hnN]
              exact hn2
          · simp only [List.mem_singleton] at hab
            subst hab
            refine ⟨st.links.length, ?_, ?_, ?_⟩
            · rw [List.length_append, List.length_singleton]
              omega
            · rw [hgetlast, hnN]
            · rw [hgetlast, hnN]
      · exact ⟨rfl, rfl⟩

theorem processRecord_core
    (st s1 s2 s3 s4 s5 : SankeyState) (i1 i2 i3 i4 i5 : ℕ)
    (ts : List (String × String)) (a1 a2 a3 a4 a5 : String)
    (hinv : SInv st ts)
    (e1 : getNodeIndex st a1 = (s1, i1))
    (e2 : getNodeIndex s1 a2 = (s2, i2))
    (e3 : getNodeIndex s2 a3 = (s3, i3))
    (e4 : getNodeIndex s3 a4 = (s4, i4))
    (e5 : getNodeIndex s4 a5 = (s5, i5)) :
    SInv (getLinkIndex (getLinkIndex (getLinkIndex (getLinkIndex s5 i1 i2) i2 i3) i3 i4) i4 i5)
      (ts ++ [(a1, a2), (a2, a3), (a3, a4), (a4, a5)]) := by
  have g1 := getNodeIndex_spec st ts a1 hinv
  rw [e1] at g1
  dsimp only at g1
  obtain ⟨q1, -, -, m1, lt1, nm1, p1⟩ := g1
  have g2 := getNodeIndex_spec s1 ts a2 q1
  rw [e2] at g2
  dsimp only at g2
  obtain ⟨q2, -, -, m2, lt2, nm2, p2⟩ := g2
  have g3 := getNodeIndex_spec s2 ts a3 q2
  rw [e3] at g3
  dsimp only at g3
  obtain ⟨q3, -, -, m3, lt3, nm3, p3⟩ := g3
  have g4 := getNodeIndex_spec s3 ts a4 q3
  rw [e4] at g4
  dsimp only at g4
  obtain ⟨q4, -, -, m4, lt4, nm4, p4⟩ := g4
  have g5 := getNodeIndex_spec s4 ts a5 q4
  rw [e5] at g5
  dsimp only at g5
  obtain ⟨q5, -, -, m5, lt5, nm5, p5⟩ := g5
  have hb1 : i1 < s5.nodes.length := by omega
  have hb2 : i2 < s5.nodes.length := by omega
  have hb3 : i3 < s5.nodes.length := by omega
  have hb4 : i4 < s5.nodes.length := by omega
  have hb5 : i5 < s5.nodes.length := lt5
  have hn1 : nodeName s5 i1 = a1 := by
    rw [p5 i1 (by omega), p4 i1 (by omega), p3 i1 (by omega), p2 i1 lt1, nm1]
  have hn2 : nodeName s5 i2 = a2 := by
    rw [p5 i2 (by omega), p4 i2 (by omega), p3 i2 lt2, nm2]
  have hn3 : nodeName s5 i3 = a3 := by
    rw [p5 i3 (by omega), p4 i3 lt3, nm3]
  have hn4 : nodeName s5 i4 = a4 := by
    rw [p5 i4 lt4, nm4]
  have hn5 : nodeName s5 i5 = a5 := nm5
  obtain ⟨Q6, n6, -⟩ := getLinkIndex_spec s5 ts i1 i2 q5 hb1 hb2
  rw [hn1, hn2] at Q6
  have nn6 : ∀ x, nodeName (getLinkIndex s5 i1 i2) x = nodeName s5 x := by
    intro x
    unfold nodeName
    rw [n6]
  have hl6 : (getLinkIndex s5 i1 i2).nodes.length = s5.nodes.length := by rw [n6]
  obtain ⟨Q7, n7, -⟩ :=
    getLinkIndex_spec (getLinkIndex s5 i1 i2) (ts ++ [(a1, a2)]) i2 i3 Q6
      (by omega) (by omega)
  simp only [nn6] at Q7
  rw [hn2, hn3] at Q7
  have nn7 : ∀ x, nodeName (getLinkIndex (getLinkIndex s5 i1 i2) i2 i3) x = nodeName s5 x := by
    intro x
    unfold nodeName
    rw [n7, n6]
  have hl7 : (getLinkIndex (getLinkIndex s5 i1 i2) i2 i3).nodes.length = s5.nodes.length := by
    rw [n7, n6]
  obtain ⟨Q8, n8, -⟩ :=
    getLinkIndex_spec (getLinkIndex (getLinkIndex s5 i1 i2) i2 i3)
      ((ts ++ [(a1, a2)]) ++ [(a2, a3)]) i3 i4 Q7 (by omega) (by omega)
  simp only [nn7] at Q8
  rw [hn3, hn4] at Q8
  have nn8 : ∀ x,
      nodeName (getLinkIndex (getLinkIndex (getLinkIndex s5 i1 i2) i2 i3) i3 i4) x =
        nodeName s5 x := by
    intro x
    unfold nodeName
    rw [n8, n7, n6]
  have hl8 :
      (getLinkIndex (getLinkIndex (getLinkIndex s5 i1 i2) i2 i3) i3 i4).nodes.length =
        s5.nodes.length := by
    rw [n8, n7, n6]
  obtain ⟨Q9, -, -⟩ :=
    getLinkIndex_spec (getLinkIndex (getLinkIndex (getLinkIndex s5 i1 i2) i2 i3) i3 i4)
      (((ts ++ [(a1, a2)]) ++ [(a2, a3)]) ++ [(a3, a4)]) i4 i5 Q8 (by omega) (by omega)
  simp only [nn8] at Q9
  rw [hn4, hn5] at Q9
  have hlist : ts ++ [(a1, a2), (a2, a3), (a3, a4), (a4, a5)] =
      (((ts ++ [(a1, a2)]) ++ [(a2, a3)]) ++ [(a3, a4)]) ++ [(a4, a5)] := by
    simp
  rw [hlist]
  exact Q9

theorem processRecord_inv (st : SankeyState) (ts : List (String × String))
    (item : TxRecord) (hinv : SInv st ts) :
    SInv (processRecord st item) (ts ++ transitionsOf item) := by
  show SInv (processRecord st item)
    (ts ++ [(item.ip_address, "API - JSON"), ("API - JSON", item.hostname),
            (item.hostname, item.path), (item.path, item.method)])
  exact processRecord_core st _ _ _ _ _ _ _ _ _ _ ts _ _ _ _ _ hinv rfl rfl rfl rfl rfl

theorem SInv_nil : SInv ⟨[], [], [], []⟩ [] := by
  constructor
  · intro a i h
    cases h
  · intro a _ nd hnd
    cases hnd
  · intro k h
    cases h
  · exact List.nodup_nil
  · intro p k h
    cases h
  · intro p _ j hj
    cases hj
  · intro j k hj _ _
    cases hj
  · intro j hj
    cases hj
  · intro j hj
    cases hj
  · intro ab hab
    cases hab

theorem foldl_inv (records : List TxRecord) :
    ∀ (st : SankeyState) (ts : List (String × String)), SInv st ts →
      SInv (records.foldl processRecord st) (ts ++ records.bind transitionsOf) := by
  induction records with
  | nil =>
      intro st ts h
      simpa using h
  | cons r rest ih =>
      intro st ts h
      simp only [List.foldl_cons, List.cons_bind, ← List.append_assoc]
      exact ih (processRecord st r) (ts ++ transitionsOf r) (processRecord_inv st ts r h)

theorem buildState_inv (records : List TxRecord) :
    SInv (buildState records) (records.bind transitionsOf) := by
  have := foldl_inv records ⟨[], [], [], []⟩ [] SInv_nil
  simpa [buildState] using this

theorem labelWeight_eq (node_data : List TxRecord) (a b : String) :
    labelWeight node_data a b =
      ((node_data.bind transitionsOf).filter
        (fun ab => ab.1 = a ∧ ab.2 = b)).length := by
  have hinv := buildState_inv node_data
  unfold buildState at hinv
  unfold labelWeight
  dsimp only
  split
  case h_1 i j ha hb =>
    obtain ⟨hil, hna⟩ := hinv.nidx_some a i ha
    obtain ⟨hjl, hnb⟩ := hinv.nidx_some b j hb
    split
    case h_1 li hl =>
      obtain ⟨hlil, hpair⟩ := hinv.lidx_some (i, j) li hl
      have hw := hinv.lweight li hlil
      have es : ((node_data.foldl processRecord
          ⟨[], [], [], []⟩).links.getD li ⟨0, 0, 0⟩).source = i :=
        congrArg Prod.fst hpair
      have et : ((node_data.foldl processRecord
          ⟨[], [], [], []⟩).links.getD li ⟨0, 0, 0⟩).target = j :=
        congrArg Prod.snd hpair
      rw [es, et, hna, hnb] at hw
      exact hw
    case h_2 hl =>
      have hz : ((node_data.bind transitionsOf).filter
          (fun ab => ab.1 = a ∧ ab.2 = b)).length = 0 := by
        rw [List.length_eq_zero, List.filter_eq_nil]
        intro ab hab
        simp only [decide_eq_true_eq, not_and]
        intro h1 h2
        obtain ⟨j1, hj1, hn1, hn2⟩ := hinv.lcover ab hab
        obtain ⟨hv1, hv2⟩ := hinv.lvalid j1 hj1
        have es : ((node_data.foldl processRecord
            ⟨[], [], [], []⟩).links.getD j1 ⟨0, 0, 0⟩).source = i :=
          nodeName_inj _ _ hinv _ i hv1 hil (by rw [hn1, h1, hna])
        have et : ((node_data.foldl processRecord
            ⟨[], [], [], []⟩).links.getD j1 ⟨0, 0, 0⟩).target = j :=
          nodeName_inj _ _ hinv _ j hv2 hjl (by rw [hn2, h2, hnb])
        exact hinv.lidx_none (i, j) hl j1 hj1 (by rw [es, et])
      omega
  case h_2 habs =>
    have hz : ((node_data.bind transitionsOf).filter
        (fun ab => ab.1 = a ∧ ab.2 = b)).length = 0 := by
      rw [List.length_eq_zero, List.filter_eq_nil]
      intro ab hab
      simp only [decide_eq_true_eq, not_and]
      intro h1 h2
      obtain ⟨j1, hj1, hn1, hn2⟩ := hinv.lcover ab hab
      obtain ⟨hv1, hv2⟩ := hinv.lvalid j1 hj1
      cases hA : alookup (node_data.foldl processRecord ⟨[], [], [], []⟩).nodeIndex a with
      | none =>
          exact hinv.nidx_none a hA _ (getD_mem _ _ ⟨"", 0⟩ hv1)
            (by unfold nodeName at hn1; rw [hn1, h1])
      | some ia =>
          cases hB : alookup (node_data.foldl processRecord ⟨[], [], [], []⟩).nodeIndex b with
          | none =>
              exact hinv.nidx_none b hB _ (getD_mem _ _ ⟨"", 0⟩ hv2)
                (by unfold nodeName at hn2; rw [hn2, h2])
          | some jb =>
              exact habs ia jb hA hB
    omega

theorem processRecord_ident_base (r : TxRecord)
    (h12 : r.ip_address ≠ "API - JSON") (h13 : r.ip_address ≠ r.hostname)
    (h14 : r.ip_address ≠ r.path) (h15 : r.ip_address ≠ r.method)
    (h23 : "API - JSON" ≠ r.hostname) (h24 : "API - JSON" ≠ r.path)
    (h25 : "API - JSON" ≠ r.method) (h34 : r.hostname ≠ r.path)
    (h35 : r.hostname ≠ r.method) (h45 : r.path ≠ r.method) :
    processRecord ⟨[], [], [], []⟩ r = identState r 1 := by
  have e1 : getNodeIndex (⟨[], [], [], []⟩ : SankeyState) r.ip_address =
      (⟨[⟨r.ip_address, 0⟩], [(r.ip_address, 0)], [], []⟩, 0) := rfl
  have e2 : getNodeIndex
      (⟨[⟨r.ip_address, 0⟩], [(r.ip_address, 0)], [], []⟩ : SankeyState) "API - JSON" =
      (⟨[⟨r.ip_address, 0⟩, ⟨"API - JSON", 1⟩],
        [(r.ip_address, 0), ("API - JSON", 1)], [], []⟩, 1) := by
    simp [getNodeIndex, alookup, h12]
  have e3 : getNodeIndex
      (⟨[⟨r.ip_address, 0⟩, ⟨"API - JSON", 1⟩],
        [(r.ip_address, 0), ("API - JSON", 1)], [], []⟩ : SankeyState) r.hostname =
      (⟨[⟨r.ip_address, 0⟩, ⟨"API - JSON", 1⟩, ⟨r.hostname, 2⟩],
        [(r.ip_address, 0), ("API - JSON", 1), (r.hostname, 2)], [], []⟩, 2) := by
    simp [getNodeIndex, alookup, h13, h23]
  have e4 : getNodeIndex
      (⟨[⟨r.ip_address, 0⟩, ⟨"API - JSON", 1⟩, ⟨r.hostname, 2⟩],
        [(r.ip_address, 0), ("API - JSON", 1), (r.hostname, 2)], [], []⟩ : SankeyState)
        r.path =
      (⟨[⟨r.ip_address, 0⟩, ⟨"API - JSON", 1⟩, ⟨r.hostname, 2⟩, ⟨r.path, 3⟩],
        [(r.ip_address, 0), ("API - JSON", 1), (r.hostname, 2), (r.path, 3)], [], []⟩, 3) := by
    simp [getNodeIndex, alookup, h14, h24, h34]
  have e5 : getNodeIndex
      (⟨[⟨r.ip_address, 0⟩, ⟨"API - JSON", 1⟩, ⟨r.hostname, 2⟩, ⟨r.path, 3⟩],
        [(r.ip_address, 0), ("API - JSON", 1), (r.hostname, 2), (r.path, 3)], [], []⟩ :
          SankeyState) r.method =
      (⟨[⟨r.ip_address, 0⟩, ⟨"API - JSON", 1⟩, ⟨r.hostname, 2⟩, ⟨r.path, 3⟩, ⟨r.method, 4⟩],
        [(r.ip_address, 0), ("API - JSON", 1), (r.hostname, 2), (r.path, 3), (r.method, 4)],
        [], []⟩, 4) := by
    simp [getNodeIndex, alookup, h15, h25, h35, h45]
  have l1 : getLinkIndex
      (⟨[⟨r.ip_address, 0⟩, ⟨"API - JSON", 1⟩, ⟨r.hostname, 2⟩, ⟨r.path, 3⟩, ⟨r.method, 4⟩],
        [(r.ip_address, 0), ("API - JSON", 1), (r.hostname, 2), (r.path, 3), (r.method, 4)],
        [], []⟩ : SankeyState) 0 1 =
      ⟨[⟨r.ip_address, 0⟩, ⟨"API - JSON", 1⟩, ⟨r.hostname, 2⟩, ⟨r.path, 3⟩, ⟨r.method, 4⟩],
        [(r.ip_address, 0), ("API - JSON", 1), (r.hostname, 2), (r.path, 3), (r.method, 4)],
        [⟨0, 1, 1⟩], [((0, 1), 0)]⟩ := rfl
  have l2 : getLinkIndex
      (⟨[⟨r.ip_address, 0⟩, ⟨"API - JSON", 1⟩, ⟨r.hostname, 2⟩, ⟨r.path, 3⟩, ⟨r.method, 4⟩],
        [(r.ip_address, 0), ("API - JSON", 1), (r.hostname, 2), (r.path, 3), (r.method, 4)],
        [⟨0, 1, 1⟩], [((0, 1), 0)]⟩ : SankeyState) 1 2 =
      ⟨[⟨r.ip_address, 0⟩, ⟨"API - JSON", 1⟩, ⟨r.hostname, 2⟩, ⟨r.path, 3⟩, ⟨r.method, 4⟩],
        [(r.ip_address, 0), ("API - JSON", 1), (r.hostname, 2), (r.path, 3), (r.method, 4)],
        [⟨0, 1, 1⟩, ⟨1, 2, 1⟩], [((0, 1), 0), ((1, 2), 1)]⟩ := rfl
  have l3 : getLinkIndex
      (⟨[⟨r.ip_address, 0⟩, ⟨"API - JSON", 1⟩, ⟨r.hostname, 2⟩, ⟨r.path, 3⟩, ⟨r.method, 4⟩],
        [(r.ip_address, 0), ("API - JSON", 1), (r.hostname, 2), (r.path, 3), (r.method, 4)],
        [⟨0, 1, 1⟩, ⟨1, 2, 1⟩], [((0, 1), 0), ((1, 2), 1)]⟩ : SankeyState) 2 3 =
      ⟨[⟨r.ip_address, 0⟩, ⟨"API - JSON", 1⟩, ⟨r.hostname, 2⟩, ⟨r.path, 3⟩, ⟨r.method, 4⟩],
        [(r.ip_address, 0), ("API - JSON", 1), (r.hostname, 2), (r.path, 3), (r.method, 4)],
        [⟨0, 1, 1⟩, ⟨1, 2, 1⟩, ⟨2, 3, 1⟩], [((0, 1), 0), ((1, 2), 1), ((2, 3), 2)]⟩ := rfl
  have l4 : getLinkIndex
      (⟨[⟨r.ip_address, 0⟩, ⟨"API - JSON", 1⟩, ⟨r.hostname, 2⟩, ⟨r.path, 3⟩, ⟨r.method, 4⟩],
        [(r.ip_address, 0), ("API - JSON", 1), (r.hostname, 2), (r.path, 3), (r.method, 4)],
        [⟨0, 1, 1⟩, ⟨1, 2, 1⟩, ⟨2, 3, 1⟩], [((0, 1), 0), ((1, 2), 1), ((2, 3), 2)]⟩ :
          SankeyState) 3 4 = identState r 1 := rfl
  simp only [processRecord]
  rw [e1]
  dsimp only
  rw [e2]
  dsimp only
  rw [e3]
  dsimp only
  rw [e4]
  dsimp only
  rw [e5]
  dsimp only
  rw [l1, l2, l3, l4]

theorem processRecord_ident_step (r : TxRecord) (n : ℕ)
    (h12 : r.ip_address ≠ "API - JSON") (h13 : r.ip_address ≠ r.hostname)
    (h14 : r.ip_address ≠ r.path) (h15 : r.ip_address ≠ r.method)
    (h23 : "API - JSON" ≠ r.hostname) (h24 : "API - JSON" ≠ r.path)
    (h25 : "API - JSON" ≠ r.method) (h34 : r.hostname ≠ r.path)
    (h35 : r.hostname ≠ r.method) (h45 : r.path ≠ r.method) :
    processRecord (identState r n) r = identState r (n + 1) := by
  have e1 : getNodeIndex (identState r n) r.ip_address = (identState r n, 0) := by
    simp [getNodeIndex, identState, alookup]
  have e2 : getNodeIndex (identState r n) "API - JSON" = (identState r n, 1) := by
    simp [getNodeIndex, identState, alookup, h12]
  have e3 : getNodeIndex (identState r n) r.hostname = (identState r n, 2) := by
    simp [getNodeIndex, identState, alookup, h13, h23]
  have e4 : getNodeIndex (identState r n) r.path = (identState r n, 3) := by
    simp [getNodeIndex, identState, alookup, h14, h24, h34]
  have e5 : getNodeIndex (identState r n) r.method = (identState r n, 4) := by
    simp [getNodeIndex, identState, alookup, h15, h25, h35, h45]
  have l1 : getLinkIndex (identState r n) 0 1 =
      ⟨[⟨r.ip_address, 0⟩, ⟨"API - JSON", 1⟩, ⟨r.hostname, 2⟩, ⟨r.path, 3⟩, ⟨r.method, 4⟩],
        [(r.ip_address, 0), ("API - JSON", 1), (r.hostname, 2), (r.path, 3), (r.method, 4)],
        [⟨0, 1, n + 1⟩, ⟨1, 2, n⟩, ⟨2, 3, n⟩, ⟨3, 4, n⟩],
        [((0, 1), 0), ((1, 2), 1), ((2, 3), 2), ((3, 4), 3)]⟩ := rfl
  have l2 : getLinkIndex
      (⟨[⟨r.ip_address, 0⟩, ⟨"API - JSON", 1⟩, ⟨r.hostname, 2⟩, ⟨r.path, 3⟩, ⟨r.method, 4⟩],
        [(r.ip_address, 0), ("API - JSON", 1), (r.hostname, 2), (r.path, 3), (r.method, 4)],
        [⟨0, 1, n + 1⟩, ⟨1, 2, n⟩, ⟨2, 3, n⟩, ⟨3, 4, n⟩],
        [((0, 1), 0), ((1, 2), 1), ((2, 3), 2), ((3, 4), 3)]⟩ : SankeyState) 1 2 =
      ⟨[⟨r.ip_address, 0⟩, ⟨"API - JSON", 1⟩, ⟨r.hostname, 2⟩, ⟨r.path, 3⟩, ⟨r.method, 4⟩],
        [(r.ip_address, 0), ("API - JSON", 1), (r.hostname, 2), (r.path, 3), (r.method, 4)],
        [⟨0, 1, n + 1⟩, ⟨1, 2, n + 1⟩, ⟨2, 3, n⟩, ⟨3, 4, n⟩],
        [((0, 1), 0), ((1, 2), 1), ((2, 3), 2), ((3, 4), 3)]⟩ := rfl
  have l3 : getLinkIndex
      (⟨[⟨r.ip_address, 0⟩, ⟨"API - JSON", 1⟩, ⟨r.hostname, 2⟩, ⟨r.path, 3⟩, ⟨r.method, 4⟩],
        [(r.ip_address, 0), ("API - JSON", 1), (r.hostname, 2), (r.path, 3), (r.method, 4)],
        [⟨0, 1, n + 1⟩, ⟨1, 2, n + 1⟩, ⟨2, 3, n⟩, ⟨3, 4, n⟩],
        [((0, 1), 0), ((1, 2), 1), ((2, 3), 2), ((3, 4), 3)]⟩ : SankeyState) 2 3 =
      ⟨[⟨r.ip_address, 0⟩, ⟨"API - JSON", 1⟩, ⟨r.hostname, 2⟩, ⟨r.path, 3⟩, ⟨r.method, 4⟩],
        [(r.ip_address, 0), ("API - JSON", 1), (r.hostname, 2), (r.path, 3), (r.method, 4)],
        [⟨0, 1, n + 1⟩, ⟨1, 2, n + 1⟩, ⟨2, 3, n + 1⟩, ⟨3, 4, n⟩],
        [((0, 1), 0), ((1, 2), 1), ((2, 3), 2), ((3, 4), 3)]⟩ := rfl
  have l4 : getLinkIndex
      (⟨[⟨r.ip_address, 0⟩, ⟨"API - JSON", 1⟩, ⟨r.hostname, 2⟩, ⟨r.path, 3⟩, ⟨r.method, 4⟩],
        [(r.ip_address, 0), ("API - JSON", 1), (r.hostname, 2), (r.path, 3), (r.method, 4)],
        [⟨0, 1, n + 1⟩, ⟨1, 2, n + 1⟩, ⟨2, 3, n + 1⟩, ⟨3, 4, n⟩],
        [((0, 1), 0), ((1, 2), 1), ((2, 3), 2), ((3, 4), 3)]⟩ : SankeyState) 3 4 =
      identState r (n + 1) := rfl
  simp only [processRecord]
  rw [e1]
  dsimp only
  rw [e2]
  dsimp only
  rw [e3]
  dsimp only
  rw [e4]
  dsimp only
  rw [e5]
  dsimp only
  rw [l1, l2, l3, l4]

theorem ident_fold (r : TxRecord)
    (h12 : r.ip_address ≠ "API - JSON") (h13 : r.ip_address ≠ r.hostname)
    (h14 : r.ip_address ≠ r.path) (h15 : r.ip_address ≠ r.method)
    (h23 : "API - JSON" ≠ r.hostname) (h24 : "API - JSON" ≠ r.path)
    (h25 : "API - JSON" ≠ r.method) (h34 : r.hostname ≠ r.path)
    (h35 : r.hostname ≠ r.method) (h45 : r.path ≠ r.method) (m : ℕ) :
    ∀ k : ℕ, List.foldl processRecord (identState r k) (List.replicate m r) =
      identState r (k + m) := by
  induction m with
  | zero =>
      intro k
      simp
  | succ m ih =>
      intro k
      rw [List.replicate_succ, List.foldl_cons,
        processRecord_ident_step r k h12 h13 h14 h15 h23 h24 h25 h34 h35 h45,
        ih (k + 1)]
      have he : k + 1 + m = k + (m + 1) := by omega
      rw [he]

/-- C6: for every `N ≥ 1`, running `createSankeyData` on `N` identical
records whose five labels (client IP, the constant `"API - JSON"` type
label, hostname, path, method) are pairwise distinct produces exactly 5
nodes — the IP, the type label, the hostname, the path, the method, in
that order — and exactly 4 edges, each of weight `N`. -/
theorem claim_C6 (r : TxRecord) (n : ℕ) (hn : 1 ≤ n)
    (h12 : r.ip_address ≠ "API - JSON") (h13 : r.ip_address ≠ r.hostname)
    (h14 : r.ip_address ≠ r.path) (h15 : r.ip_address ≠ r.method)
    (h23 : "API - JSON" ≠ r.hostname) (h24 : "API - JSON" ≠ r.path)
    (h25 : "API - JSON" ≠ r.method) (h34 : r.hostname ≠ r.path)
    (h35 : r.hostname ≠ r.method) (h45 : r.path ≠ r.method) :
    createSankeyData (List.replicate n r) =
      ([⟨r.ip_address, 0⟩, ⟨"API - JSON", 1⟩, ⟨r.hostname, 2⟩, ⟨r.path, 3⟩, ⟨r.method, 4⟩],
       [⟨0, 1, n⟩, ⟨1, 2, n⟩, ⟨2, 3, n⟩, ⟨3, 4, n⟩]) := by
  obtain ⟨m, rfl⟩ : ∃ m, n = m + 1 := ⟨n - 1, by omega⟩
  have hb : buildState (List.replicate (m + 1) r) = identState r (m + 1) := by
    unfold buildState
    rw [List.replicate_succ, List.foldl_cons,
      processRecord_ident_base r h12 h13 h14 h15 h23 h24 h25 h34 h35 h45,
      ident_fold r h12 h13 h14 h15 h23 h24 h25 h34 h35 h45 m 1]
    have he : 1 + m = m + 1 := by omega
    rw [he]
  show ((buildState (List.replicate (m + 1) r)).nodes,
        (buildState (List.replicate (m + 1) r)).links) = _
  rw [hb]
  rfl

theorem claim_C6_witness :
    createSankeyData (List.replicate 2 sampleRecord) =
      ([⟨"1.2.3.4", 0⟩, ⟨"API - JSON", 1⟩, ⟨"h", 2⟩, ⟨"/p", 3⟩, ⟨"GET", 4⟩],
       [⟨0, 1, 2⟩, ⟨1, 2, 2⟩, ⟨2, 3, 2⟩, ⟨3, 4, 2⟩]) :=
  claim_C6 sampleRecord 2 (by decide) (by decide) (by decide) (by decide) (by decide)
    (by decide) (by decide) (by decide) (by decide) (by decide) (by decide)

/-- C7: for every record list and every permutation of it,
`createSankeyData` assigns the same weight to the edge connecting any
ordered pair of labels (resolved through the node and link index tables);
only ordinal indices and output order may differ. -/
theorem claim_C7 (l1 l2 : List TxRecord) (hperm : l1.Perm l2) (a b : String) :
    labelWeight l1 a b = labelWeight l2 a b := by
  rw [labelWeight_eq, labelWeight_eq]
  exact ((hperm.bind_right transitionsOf).filter _).length_eq

theorem claim_C7_witness :
    labelWeight [sampleRecord, boundaryRecord] "1.2.3.4" "API - JSON" =
      labelWeight [boundaryRecord, sampleRecord] "1.2.3.4" "API - JSON" :=
  claim_C7 [sampleRecord, boundaryRecord] [boundaryRecord, sampleRecord]
    (List.Perm.swap boundaryRecord sampleRecord []) "1.2.3.4" "API - JSON"

/-- C10: for every record list, the graph returned by `createSankeyData`
is well-formed: the nodes' `index` fields are exactly the positions
`0, 1, 2, ...` in the nodes list, and every link's `source` and `target`
are strictly less than the number of nodes. -/
theorem claim_C10 (node_data : List TxRecord) :
    (createSankeyData node_data).1.map SNode.index =
      List.range (createSankeyData node_data).1.length ∧
    ∀ l ∈ (createSankeyData node_data).2,
      l.source < (createSankeyData node_data).1.length ∧
      l.target < (createSankeyData node_data).1.length := by
  have hinv := buildState_inv node_data
  constructor
  · apply List.ext_get
    · simp
    · intro k h1 h2
      rw [List.get_map, List.get_range]
      exact hinv.npos k (by simpa using h1)
  · intro l hl
    obtain ⟨⟨k, hk⟩, hget⟩ := List.mem_iff_get.mp hl
    have hv := hinv.lvalid k hk
    have hbl : (buildState node_data).links = (createSankeyData node_data).2 := rfl
    have hbn : (buildState node_data).nodes = (createSankeyData node_data).1 := rfl
    rw [hbl, hbn] at hv
    rw [getD_eq_get _ _ _ hk] at hv
    rw [hget] at hv
    exact hv

theorem claim_C10_witness :
    (createSankeyData [sampleRecord]).1.map SNode.index =
      List.range (createSankeyData [sampleRecord]).1.length ∧
    ∀ l ∈ (createSankeyData [sampleRecord]).2,
      l.source < (createSankeyData [sampleRecord]).1.length ∧
      l.target < (createSankeyData [sampleRecord]).1.length :=
  claim_C10 [sampleRecord]
